import Mathlib

/-!
Verification of the hiper time-tracking storage and timer core.

The Python modules `hiper/storage.py`, `hiper/commands/prefokus.py`,
`hiper/commands/finish.py` and `hiper/commands/fokus.py` are shallowly
embedded below.  File contents are modelled as lists of rows; the sessions
CSV is kept at the string level (its parser can fail), while the goals CSV
is modelled at the level of parsed cell values, a cell that is the empty
string being `none`.  Library functions of Python (`str.strip`,
`datetime.fromisoformat`, `int`, `date.toordinal`) are given explicit
models.  Machine-independent integers are `Nat`/`Int`, timestamps are
seconds counted from the proleptic Gregorian epoch, dates are ordinals as
in `datetime.date.toordinal`.
-/

namespace Hiper

/-- Decidable equality of `Except` values, for evaluating the fallible
loaders on concrete inputs. -/
instance {ε α : Type} [DecidableEq ε] [DecidableEq α] : DecidableEq (Except ε α)
  | .error e, .error f =>
    if h : e = f then .isTrue (by rw [h])
    else .isFalse (by intro hh; injection hh; exact h ‹_›)
  | .error _, .ok _ => .isFalse (by intro hh; exact Except.noConfusion hh)
  | .ok _, .error _ => .isFalse (by intro hh; exact Except.noConfusion hh)
  | .ok a, .ok b =>
    if h : a = b then .isTrue (by rw [h])
    else .isFalse (by intro hh; injection hh; exact h ‹_›)

/-! ## Decimal digits -/

/-- The character of a decimal digit, `digitChar 3 = '3'`. -/
def digitChar (d : Nat) : Char := Char.ofNat (48 + d)

/-- Digits of `n` in front of `acc`, most significant first; structural on
an explicit fuel so that concrete values reduce in the kernel. -/
def natDigitsAux : Nat → Nat → List Char → List Char
  | 0, _, acc => acc
  | fuel + 1, n, acc =>
    if n < 10 then digitChar n :: acc
    else natDigitsAux fuel (n / 10) (digitChar (n % 10) :: acc)

/-- The decimal digit characters of `n`, most significant first. -/
def natDigits (n : Nat) : List Char := natDigitsAux (n + 1) n []

/-- Number of decimal digits produced by `natDigitsAux` at the same fuel. -/
def numDigitsAux : Nat → Nat → Nat
  | 0, _ => 0
  | fuel + 1, n => if n < 10 then 1 else numDigitsAux fuel (n / 10) + 1

/-- Model of Python `str(n)` for a natural number. -/
def natRepr (n : Nat) : String := String.mk (natDigits n)

/-- Model of the Python format `f"\x7bn:02d\x7d"` on a natural number: the
decimal digits, left-padded with one zero to a minimum width of two. -/
def pad2 (n : Nat) : List Char :=
  if n < 10 then '0' :: natDigits n else natDigits n

/-! ## DurationCodec (`storage.format_hms`, `storage.parse_duration`) -/

/-- Embedding of `storage.format_hms` (storage.py lines 61-66): compact
`HHhMMmSSs` when the hour part is nonzero, else `MMmSSs`, every component
zero-padded to two digits.  The Python source applies `int(seconds)` and
is only ever called on non-negative values, so the domain is `Nat`. -/
def format_hms (seconds : Nat) : String :=
  let minutes := seconds / 60
  let secs := seconds % 60
  let hours := minutes / 60
  let minutes2 := minutes % 60
  if hours ≠ 0 then
    String.mk (pad2 hours ++ ('h' :: (pad2 minutes2 ++ ('m' :: (pad2 secs ++ ['s'])))))
  else
    String.mk (pad2 minutes2 ++ ('m' :: (pad2 secs ++ ['s'])))

/-- Failure cases of `storage.parse_duration`, mirroring the four
`ValueError` messages of the source. -/
inductive DurationError where
  | emptyDuration : DurationError
  | missingNumberBeforeUnit : DurationError
  | unexpectedChar (c : Char) : DurationError
  | nonPositive : DurationError
deriving Repr, DecidableEq

/-- Model of Python `str.strip` on a character list: whitespace removed
from both ends. -/
def pyStrip (cs : List Char) : List Char :=
  (((cs.dropWhile Char.isWhitespace).reverse).dropWhile Char.isWhitespace).reverse

/-- Model of Python `str.strip` on strings. -/
def pyStripStr (s : String) : String := String.mk (pyStrip s.data)

/-- The scanning loop of `storage.parse_duration` (storage.py lines 73-101).
`total` is the accumulated seconds; `num` models the pending digit buffer
string by its numeric value, `none` standing for the empty buffer. -/
def scanDur : List Char → Nat → Option Nat → Except DurationError Nat
  | [], total, num =>
    let total := match num with
      | some v => total + v * 60
      | none => total
    if total = 0 then .error .nonPositive else .ok total
  | c :: cs, total, num =>
    if c.isDigit then
      scanDur cs total (some (10 * num.getD 0 + (c.toNat - 48)))
    else if c = 'h' then
      match num with
      | none => .error .missingNumberBeforeUnit
      | some v => scanDur cs (total + v * 3600) none
    else if c = 'm' then
      match num with
      | none => .error .missingNumberBeforeUnit
      | some v => scanDur cs (total + v * 60) none
    else if c = 's' then
      match num with
      | none => .error .missingNumberBeforeUnit
      | some v => scanDur cs (total + v) none
    else .error (.unexpectedChar c)

/-- Embedding of `storage.parse_duration` (storage.py lines 69-101): strip,
lowercase, then scan `<digits><unit>` groups with units h, m, s; a trailing
bare number counts as minutes; a non-positive total is rejected. -/
def parse_duration (s : String) : Except DurationError Nat :=
  if (pyStrip s.data).map Char.toLower = [] then .error .emptyDuration
  else scanDur ((pyStrip s.data).map Char.toLower) 0 none

/-! ## Calendar model (Python `datetime.date` / `datetime.datetime`)

Dates are their proleptic Gregorian ordinals, exactly as produced by
`datetime.date.toordinal` (ordinal 1 is 0001-01-01).  A datetime is the
number of seconds `ordinal * 86400 + h * 3600 + min * 60 + s`. -/

/-- Model of the Gregorian leap-year rule used by `datetime`. -/
def isLeap (y : Nat) : Bool := y % 4 = 0 && (y % 100 ≠ 0 || y % 400 = 0)

/-- Days in a month of year `y`, as validated by `datetime.date`. -/
def daysInMonth (y m : Nat) : Nat :=
  match m with
  | 1 => 31
  | 2 => if isLeap y then 29 else 28
  | 3 => 31
  | 4 => 30
  | 5 => 31
  | 6 => 30
  | 7 => 31
  | 8 => 31
  | 9 => 30
  | 10 => 31
  | 11 => 30
  | 12 => 31
  | _ => 0

/-- Days in all years before year `y` (model of `datetime._days_before_year`). -/
def daysBeforeYear (y : Nat) : Nat :=
  365 * (y - 1) + (y - 1) / 4 - (y - 1) / 100 + (y - 1) / 400

/-- Days in year `y` before the first of month `m`. -/
def daysBeforeMonth (y m : Nat) : Nat :=
  let base : Nat :=
    match m with
    | 1 => 0
    | 2 => 31
    | 3 => 59
    | 4 => 90
    | 5 => 120
    | 6 => 151
    | 7 => 181
    | 8 => 212
    | 9 => 243
    | 10 => 273
    | 11 => 304
    | 12 => 334
    | _ => 0
  base + (if 2 < m ∧ isLeap y then 1 else 0)

/-- Model of `datetime.date(y, m, d).toordinal()`. -/
def dateOrdinal (y m d : Nat) : Nat :=
  daysBeforeYear y + daysBeforeMonth y m + d

/-- Numeric value of a decimal digit character, `none` on anything else. -/
def digitVal (c : Char) : Option Nat :=
  if c.isDigit then some (c.toNat - 48) else none

/-- Value of a two-digit group. -/
def num2 (c1 c2 : Char) : Option Nat := do
  let a ← digitVal c1
  let b ← digitVal c2
  pure (10 * a + b)

/-- Value of a four-digit group. -/
def num4 (c1 c2 c3 c4 : Char) : Option Nat := do
  let a ← num2 c1 c2
  let b ← num2 c3 c4
  pure (100 * a + b)

/-- Seconds value of a validated calendar datetime, `none` when any
component is out of range, as `datetime` would raise `ValueError`. -/
def mkDateTime (y mo d h mi s : Nat) : Option Nat :=
  if 1 ≤ y ∧ 1 ≤ mo ∧ mo ≤ 12 ∧ 1 ≤ d ∧ d ≤ daysInMonth y mo ∧
      h < 24 ∧ mi < 60 ∧ s < 60 then
    some (dateOrdinal y mo d * 86400 + h * 3600 + mi * 60 + s)
  else none

/-- Model of `datetime.datetime.fromisoformat`, restricted to the
`YYYY-MM-DD` and `YYYY-MM-DD(T| )HH:MM:SS` shapes the repository writes;
`none` models the `ValueError` raised on any malformed string. -/
def parseIsoDatetime (s : String) : Option Nat :=
  match s.data with
  | [y1, y2, y3, y4, '-', m1, m2, '-', d1, d2] => do
    let y ← num4 y1 y2 y3 y4
    let mo ← num2 m1 m2
    let d ← num2 d1 d2
    mkDateTime y mo d 0 0 0
  | [y1, y2, y3, y4, '-', m1, m2, '-', d1, d2, sep, h1, h2, ':', n1, n2, ':', s1, s2] => do
    if sep = 'T' ∨ sep = ' ' then
      let y ← num4 y1 y2 y3 y4
      let mo ← num2 m1 m2
      let d ← num2 d1 d2
      let h ← num2 h1 h2
      let mi ← num2 n1 n2
      let sec ← num2 s1 s2
      mkDateTime y mo d h mi sec
    else none
  | _ => none

/-- Digit-run scanner for the model of Python `int`. -/
def pyIntDigits : List Char → Nat → Option Nat
  | [], acc => some acc
  | c :: cs, acc =>
    match digitVal c with
    | some d => pyIntDigits cs (10 * acc + d)
    | none => none

/-- Model of Python `int(str)`: optional surrounding whitespace, optional
sign, then a non-empty run of decimal digits; `none` models `ValueError`. -/
def pyInt (s : String) : Option Int :=
  match pyStrip s.data with
  | [] => none
  | '-' :: cs =>
    match cs with
    | [] => none
    | _ => (pyIntDigits cs 0).map (fun n => -(n : Int))
  | '+' :: cs =>
    match cs with
    | [] => none
    | _ => (pyIntDigits cs 0).map (fun n => (n : Int))
  | cs => (pyIntDigits cs 0).map (fun n => (n : Int))

/-! ## SessionStore (`storage.load_sessions_csv`, `storage.get_time_worked_for_title`) -/

/-- One data row of `sessions.csv` as read by `csv.DictReader`: every cell
is a string, a missing cell being the empty string (missing and empty cells
are treated alike by the source). -/
structure RawSessionRow where
  title : String
  start : String
  stop : String
  duration : String
  duration_formatted : String
deriving Repr, DecidableEq

/-- A parsed session as produced by `load_sessions_csv`. -/
structure Session where
  title : String
  start : Nat
  stop : Nat
  duration : Int
deriving Repr, DecidableEq

/-- Failure cases of the storage loaders: the `ValueError` of
`datetime.fromisoformat` or of `int` escaping `load_sessions_csv`, which
has no handler for either. -/
inductive LoadError where
  | badTimestamp (s : String) : LoadError
  | badInt (s : String) : LoadError
deriving Repr, DecidableEq

/-- The guarded timestamp parse of a session row cell (storage.py lines
114-117): an empty cell yields `none`, a non-empty cell must parse or the
`ValueError` of `fromisoformat` escapes. -/
def tsStep (s : String) : Except LoadError (Option Nat) :=
  if s = "" then .ok none
  else
    match parseIsoDatetime s with
    | some t => .ok (some t)
    | none => .error (.badTimestamp s)

/-- The duration parse of a session row cell (storage.py line 118): an
empty or missing cell counts as 0, a non-empty cell must parse as an
integer or the `ValueError` of `int` escapes. -/
def durStep (s : String) : Except LoadError Int :=
  if s = "" then .ok 0
  else
    match pyInt s with
    | some v => .ok v
    | none => .error (.badInt s)

/-- One iteration of the row loop of `load_sessions_csv` (storage.py lines
112-128): parse `start` and `stop` when non-empty (a parse failure
escapes), parse the duration with default 0, then skip the row (`none`)
when either timestamp is absent. -/
def parseSessionRow (r : RawSessionRow) : Except LoadError (Option Session) :=
  match tsStep r.start with
  | .error e => .error e
  | .ok start? =>
    match tsStep r.stop with
    | .error e => .error e
    | .ok stop? =>
      match durStep r.duration with
      | .error e => .error e
      | .ok dur =>
        match start?, stop? with
        | some st, some en => .ok (some ⟨r.title, st, en, dur⟩)
        | _, _ => .ok none

/-- Embedding of `storage.load_sessions_csv` (storage.py lines 104-129) on
the list of data rows of the file. -/
def load_sessions_csv : List RawSessionRow → Except LoadError (List Session)
  | [] => .ok []
  | r :: rs =>
    match parseSessionRow r with
    | .error e => .error e
    | .ok s? =>
      match load_sessions_csv rs with
      | .error e => .error e
      | .ok rest =>
        .ok (match s? with
          | some s => s :: rest
          | none => rest)

/-- Embedding of `storage.get_time_worked_for_title` (storage.py lines
343-371), over an already loaded session list: total duration of the
sessions whose stripped title matches, restricted to `start ≥ ts` when an
`after_timestamp` `ts` is given. -/
def get_time_worked_for_title (sessions : List Session) (title : String)
    (after_timestamp : Option Nat) : Int :=
  let t := pyStripStr title
  sessions.foldl
    (fun total row =>
      if pyStripStr row.title = t then
        match after_timestamp with
        | some ts => if row.start < ts then total else total + row.duration
        | none => total + row.duration
      else total)
    0

/-! ## GoalStore (`storage.load_goals_csv`, `storage.save_goals_csv`)

A data row of `goals.csv` is modelled at the level of its parsed cell
values: a numeric or date cell holds `none` exactly when the file holds
the empty string, and a text cell holds the string itself.  Timestamps are
seconds, dates are ordinals. -/

/-- One data row of `goals.csv`. -/
structure GoalRow where
  title : String
  estimate_seconds : Option Int
  estimate_formatted : String
  estimate_timestamp : Option Nat
  deadline : Option Int
  time_worked_seconds : Option Int
  time_worked_formatted : String
  start_by : Option Int
deriving Repr, DecidableEq

/-- A goal record as held in memory by `load_goals_csv`. -/
structure Goal where
  title : String
  estimate_seconds : Int
  estimate_formatted : String
  estimate_timestamp : Option Nat
  deadline : Option Int
  time_worked_seconds : Int
  time_worked_formatted : String
  start_by : Option Int
deriving Repr, DecidableEq

/-- The row-parsing block of `load_goals_csv` (storage.py lines 161-211):
strip the title and skip the row when it is empty, default the numeric
cells to 0, and recompute the two formatted cells when absent and the
corresponding value is positive. -/
def parseGoalRow (r : GoalRow) : Option Goal :=
  let title := pyStripStr r.title
  if title = "" then none
  else
    let est := r.estimate_seconds.getD 0
    let tw := r.time_worked_seconds.getD 0
    let estF0 := pyStripStr r.estimate_formatted
    let estF := if estF0 = "" ∧ 0 < est then format_hms est.toNat else estF0
    let twF0 := pyStripStr r.time_worked_formatted
    let twF := if twF0 = "" ∧ 0 < tw then format_hms tw.toNat else twF0
    some ⟨title, est, estF, r.estimate_timestamp, r.deadline, tw, twF, r.start_by⟩

/-- One row of `save_goals_csv` (storage.py lines 298-339): formatted cells
recomputed when absent and positive, numeric cells written as the empty
string when zero, dates and timestamps written when present. -/
def serializeGoal (g : Goal) : GoalRow :=
  let estF :=
    if g.estimate_formatted = "" ∧ 0 < g.estimate_seconds then
      format_hms g.estimate_seconds.toNat
    else g.estimate_formatted
  let twF :=
    if g.time_worked_formatted = "" ∧ 0 < g.time_worked_seconds then
      format_hms g.time_worked_seconds.toNat
    else g.time_worked_formatted
  { title := g.title
    estimate_seconds := if g.estimate_seconds ≠ 0 then some g.estimate_seconds else none
    estimate_formatted := estF
    estimate_timestamp := g.estimate_timestamp
    deadline := g.deadline
    time_worked_seconds := if g.time_worked_seconds ≠ 0 then some g.time_worked_seconds else none
    time_worked_formatted := twF
    start_by := g.start_by }

/-- Model of the Python dict update `existing_goals[title] = goal`: replace
in place when the title is present, append otherwise (insertion order is
preserved, as for a Python dict). -/
def dictInsert (gs : List Goal) (g : Goal) : List Goal :=
  if gs.any (fun x => x.title = g.title) then
    gs.map (fun x => if x.title = g.title then g else x)
  else gs ++ [g]

/-- The parsed contents of the goals file, keyed by title with
last-row-wins semantics. -/
def parsedGoals (file : List GoalRow) : List Goal :=
  file.foldl
    (fun acc r =>
      match parseGoalRow r with
      | none => acc
      | some g => dictInsert acc g)
    []

/-- The set of stripped non-empty session titles (storage.py lines
214-221), modelled as a duplicate-free list; the source uses a Python
`set`, whose iteration order is unspecified. -/
def sessionTitles (sessions : List Session) : List String :=
  ((sessions.map (fun s => pyStripStr s.title)).filter (fun t => t ≠ "")).dedup

/-- A goal entry created for a session title absent from the goals file
(storage.py lines 228-237). -/
def blankGoal (t : String) : Goal :=
  ⟨t, 0, "", none, none, 0, "", none⟩

/-- The insertion loop of `load_goals_csv` (storage.py lines 224-238):
append a blank goal for every session title without one, reporting whether
any entry was created. -/
def addMissing (gs : List Goal) : List String → List Goal × Bool
  | [] => (gs, false)
  | t :: ts =>
    if gs.any (fun x => x.title = t) then addMissing gs ts
    else ((addMissing (gs ++ [blankGoal t]) ts).1, true)

/-- The freshly recomputed `time_worked` of a goal (storage.py lines
246-253): inside the estimate window when a timestamp exists, over all
matching sessions otherwise. -/
def goalNewTime (sessions : List Session) (g : Goal) : Int :=
  get_time_worked_for_title sessions g.title g.estimate_timestamp

/-- The `time_worked` refresh of one goal (storage.py lines 254-264):
store the recomputed value and its formatted text when it changed, else
fill the formatted text if absent. -/
def updateTW (sessions : List Session) (g : Goal) : Goal :=
  let newTime := goalNewTime sessions g
  if g.time_worked_seconds ≠ newTime then
    { g with
        time_worked_seconds := newTime
        time_worked_formatted := if 0 < newTime then format_hms newTime.toNat else "" }
  else if g.time_worked_formatted = "" then
    { g with
        time_worked_formatted := if 0 < newTime then format_hms newTime.toNat else "" }
  else g

/-- The `estimate_formatted` backfill of one goal (storage.py lines
266-270). -/
def ensureEstF (g : Goal) : Goal :=
  if 0 < g.estimate_seconds ∧ g.estimate_formatted = "" then
    { g with estimate_formatted := format_hms g.estimate_seconds.toNat }
  else g

/-- The per-goal body of the recomputation loop of `load_goals_csv`
(storage.py lines 242-270): recompute `time_worked` inside the estimate
window, refresh the formatted cells, and report whether the stored value
changed. -/
def updateGoalTime (sessions : List Session) (g : Goal) : Goal × Bool :=
  (ensureEstF (updateTW sessions g),
    decide (g.time_worked_seconds ≠ goalNewTime sessions g))

/-- The recomputation loop over all goals, reporting whether any
`time_worked` changed. -/
def updateAllGoals (sessions : List Session) : List Goal → List Goal × Bool
  | [] => ([], false)
  | g :: gs =>
    let (g1, c) := updateGoalTime sessions g
    let (rest, f) := updateAllGoals sessions gs
    (g1 :: rest, c || f)

/-- The pure reconciliation pass of `load_goals_csv` (storage.py lines
150-276) over already loaded sessions: parse the goal rows, insert blank
goals for new session titles, recompute `time_worked`, and rewrite the
file exactly when something changed.  Returns the goal list, the resulting
file contents, and whether a write happened. -/
def load_goals_pure (file : List GoalRow) (sessions : List Session) :
    List Goal × List GoalRow × Bool :=
  let g1 := (addMissing (parsedGoals file) (sessionTitles sessions)).1
  let newFlag := (addMissing (parsedGoals file) (sessionTitles sessions)).2
  let g2 := (updateAllGoals sessions g1).1
  let updFlag := (updateAllGoals sessions g1).2
  if newFlag || updFlag then (g2, g2.map serializeGoal, true)
  else (g2, file, false)

/-- Embedding of `storage.load_goals_csv`: load the sessions file (whose
parse errors escape) and run the reconciliation pass. -/
def load_goals_csv (goalFile : List GoalRow) (sessionFile : List RawSessionRow) :
    Except LoadError (List Goal × List GoalRow × Bool) :=
  match load_sessions_csv sessionFile with
  | .error e => .error e
  | .ok sessions => .ok (load_goals_pure goalFile sessions)

/-! ## Appending a session (`storage.save_session_csv`) -/

/-- The two persistent files the storage layer owns. -/
structure Store where
  sessions : List RawSessionRow
  goals : List GoalRow
deriving Repr, DecidableEq

/-- The row appended to `sessions.csv` by `save_session_csv` (storage.py
lines 40-48).  `iso` abstracts `datetime.isoformat`; the duration is
non-negative in every call site (a timer elapsed value or a parsed
duration). -/
def sessionRowOf (iso : Nat → String) (title : String) (start stop : Nat)
    (duration_seconds : Nat) : RawSessionRow :=
  ⟨title, iso start, iso stop, natRepr duration_seconds, format_hms duration_seconds⟩

/-- Embedding of `storage.save_session_csv` (storage.py lines 32-58):
append the row, then try to reconcile `goals.csv`; any error of the
reconciliation is caught and the save still returns the ledger location. -/
def save_session_csv (iso : Nat → String) (title : String) (start stop : Nat)
    (duration_seconds : Nat) (st : Store) : Store × String :=
  let sessions2 := st.sessions ++ [sessionRowOf iso title start stop duration_seconds]
  let goals2 :=
    match load_goals_csv st.goals sessions2 with
    | .ok (_, f1, _) => f1
    | .error _ => st.goals
  (⟨sessions2, goals2⟩, "sessions.csv")

/-! ## Finishing a goal (`commands/finish.py`) -/

/-- The field-clearing step of `finish_run` (finish.py lines 36-48): zero
the estimate, clear its formatted text, timestamp, deadline and start-by,
keep both time-worked fields. -/
def clearGoal (g : Goal) : Goal :=
  { g with
      estimate_seconds := 0
      estimate_formatted := ""
      estimate_timestamp := none
      deadline := none
      start_by := none }

/-- The search loop of `finish_run` (finish.py lines 26-49): clear the
first goal whose stripped title matches, `none` when no goal matches. -/
def finishGoals (t : String) : List Goal → Option (List Goal)
  | [] => none
  | g :: gs =>
    if pyStripStr g.title = t then some (clearGoal g :: gs)
    else (finishGoals t gs).map (fun rest => g :: rest)

/-- Embedding of `finish_run` (finish.py lines 16-58): returns the exit
code and the resulting goals file.  An empty title fails before touching
storage; a missing title fails after the load (whose own reconciliation
writes may persist); a found title clears the goal and rewrites the file. -/
def finish_run (title : String) (st : Store) : Except LoadError (Nat × List GoalRow) :=
  let t := pyStripStr title
  if t = "" then .ok (1, st.goals)
  else
    match load_goals_csv st.goals st.sessions with
    | .error e => .error e
    | .ok (goals, f1, _) =>
      match finishGoals t goals with
      | some goals2 => .ok (0, goals2.map serializeGoal)
      | none => .ok (1, f1)

/-! ## PlanningEngine (`commands/prefokus._calculate_start_by`) -/

/-- Embedding of `_calculate_start_by` (prefokus.py lines 16-44).  `today`
models `datetime.date.today()` and `seconds_per_day` the configured
`work_per_day` budget, both external inputs; dates are ordinals.  Python
`//` is floor division, `Int.fdiv` here. -/
def calculate_start_by (estimate_seconds deadline time_worked_seconds today
    seconds_per_day : Int) : Int :=
  let remaining := estimate_seconds - time_worked_seconds
  if remaining ≤ 0 then today
  else
    let days_needed := (remaining + seconds_per_day - 1).fdiv seconds_per_day
    (deadline - 1) - (days_needed - 1)

/-! ## Display formatting (`commands/fokus.py`) -/

/-- Embedding of `_format_duration` (fokus.py lines 34-35), the formatter
used by `_tick_render` for the digital clock line and by every on-screen
duration caption: it delegates to `storage.format_hms`. -/
def format_duration (seconds : Nat) : String := format_hms seconds

/-- Modelled from the spec: the distinct colon-separated display variant
the spec describes for on-screen elapsed time, zero-padded `H:MM:SS` when
hours are positive, else `MM:SS`.  No such formatter exists in the source;
this definition follows the words of the spec for comparison. -/
def displayFormatColon (seconds : Nat) : String :=
  let minutes := seconds / 60
  let secs := seconds % 60
  let hours := minutes / 60
  let minutes2 := minutes % 60
  if 0 < hours then
    String.mk (natDigits hours ++ (':' :: (pad2 minutes2 ++ (':' :: pad2 secs))))
  else
    String.mk (pad2 minutes2 ++ (':' :: pad2 secs))

/-! ## TimerEngine (`commands/fokus.fokus_run`) -/

/-- The timer control state of `fokus_run` (fokus.py lines 294-297):
`paused`, the seconds accumulated over past running spans, the instant the
current running span began, and the instant the current pause began.
Wall-clock instants are whole seconds. -/
structure TimerState where
  paused : Bool
  accumulated : Nat
  run_started : Nat
  pause_started : Option Nat
deriving Repr, DecidableEq

/-- The initial state of a session started at `t0` (fokus.py lines 294-297). -/
def initTimer (t0 : Nat) : TimerState :=
  ⟨false, 0, t0, none⟩

/-- The elapsed-time computation of the control loop (fokus.py lines
317-321): frozen at `accumulated` while paused, else `accumulated` plus
the age of the current running span. -/
def elapsed (st : TimerState) (now : Nat) : Nat :=
  if st.paused then st.accumulated else st.accumulated + (now - st.run_started)

/-- The parameter list of `messages.paused_line` (messages.py line 112):
a single `current_time`. -/
def paused_line_params : List String := ["current_time"]

/-- Python keyword binding: the first keyword of a call that the callee
does not accept, `none` when all of them bind.  An unexpected keyword
raises `TypeError` before the callee body runs. -/
def unexpectedKeyword (params kwargs : List String) : Option String :=
  kwargs.find? (fun k => !params.contains k)

/-- The `TypeError` raised by a Python call passing an unexpected keyword
argument. -/
inductive PyCallError where
  | typeError (func kw : String) : PyCallError
deriving Repr, DecidableEq

/-- The pause branch of the control loop (fokus.py lines 345-354),
reachable only while running: bank the current span and freeze, then
print `msgs.paused_line(current_time=now, elapsed_seconds=elapsed)`.
The callee accepts only `current_time` (messages.py line 112), so the
call raises `TypeError` after the state change; the loop catches only
`KeyboardInterrupt`, so the exception escapes and the session aborts
instead of pausing. -/
def pauseKeyRun (st : TimerState) (now : Nat) : Except PyCallError TimerState :=
  if st.paused then .ok st
  else
    let st2 := { st with
        accumulated := st.accumulated + (now - st.run_started)
        paused := true
        pause_started := some now }
    match unexpectedKeyword paused_line_params ["current_time", "elapsed_seconds"] with
    | some kw => .error (.typeError "paused_line" kw)
    | none => .ok st2

/-- The character alphabet of `format_hms` output: decimal digits and the
three unit letters. -/
def durChar (c : Char) : Bool := c.isDigit || c = 'h' || c = 'm' || c = 's'

/-- The shape invariant of every goal record produced by the
reconciliation pass: a stripped non-empty title, strip-stable formatted
cells, and formatted text present whenever the corresponding value is
positive. -/
def GoalInv (g : Goal) : Prop :=
  pyStripStr g.title = g.title ∧ g.title ≠ "" ∧
  pyStripStr g.estimate_formatted = g.estimate_formatted ∧
  pyStripStr g.time_worked_formatted = g.time_worked_formatted ∧
  (0 < g.estimate_seconds → g.estimate_formatted ≠ "") ∧
  (0 < g.time_worked_seconds → g.time_worked_formatted ≠ "")

/-! # Theorems -/

/-! ## Timer state machine (claim C6) -/

/-- Claim C6 (code bug): the paused state the claim describes is
unreachable — every pause keypress in a running session reaches the
`paused_line` call of fokus.py line 353 with the unexpected keyword
`elapsed_seconds`, raising `TypeError` and aborting the session, so the
frozen-elapsed behaviour and every pause/resume cycle cannot execute in
the program as written. -/
theorem fokus_pause_crashes :
    (∀ (st : TimerState) (now : Nat), st.paused = false →
        pauseKeyRun st now
          = .error (.typeError "paused_line" "elapsed_seconds")) ∧
    pauseKeyRun (initTimer 0) 10
      = .error (.typeError "paused_line" "elapsed_seconds") := by
  constructor
  · intro st now h
    unfold pauseKeyRun
    rw [if_neg (by simp [h])]
    rfl
  · decide

theorem fokus_pause_crashes_witness :
    (initTimer 0).paused = false ∧
    pauseKeyRun (initTimer 0) 10
      = .error (.typeError "paused_line" "elapsed_seconds") :=
  ⟨by decide, fokus_pause_crashes.1 (initTimer 0) 10 (by decide)⟩

/-! ## Planning engine (claims C3 and C10) -/

theorem fdiv_add_sub_one_eq_ceil (r s : Int) (hs : 0 < s) :
    (r + s - 1).fdiv s = ⌈(r : ℚ) / (s : ℚ)⌉ := by
  rw [Int.fdiv_eq_ediv _ hs.le]
  set d := (r + s - 1) / s with hd
  have h1 : d * s ≤ r + s - 1 := Int.ediv_mul_le _ (ne_of_gt hs)
  have h2 : r + s - 1 < (d + 1) * s := Int.lt_ediv_add_one_mul_self _ hs
  have hsq : (0 : ℚ) < (s : ℚ) := by exact_mod_cast hs
  symm
  rw [Int.ceil_eq_iff]
  constructor
  · rw [lt_div_iff₀ hsq]
    have : (d - 1) * s < r := by nlinarith
    exact_mod_cast this
  · rw [div_le_iff₀ hsq]
    have : r ≤ d * s := by nlinarith
    exact_mod_cast this

/-- Claim C3: with a positive daily budget, the start-by computation
returns today when no work remains, and otherwise backs off from the last
workable day `deadline − 1` by `ceil(remaining / budget) − 1` days; in
particular a 20h estimate, deadline 2025-12-09, nothing worked and an 8h
budget give 2025-12-06. -/
theorem calculate_start_by_spec :
    (∀ est dl tw today spd : Int, 0 < spd → est - tw ≤ 0 →
        calculate_start_by est dl tw today spd = today) ∧
    (∀ est dl tw today spd : Int, 0 < spd → 0 < est - tw →
        calculate_start_by est dl tw today spd
          = (dl - 1) - (⌈((est - tw : Int) : ℚ) / ((spd : Int) : ℚ)⌉ - 1)) ∧
    (∀ today : Int,
        calculate_start_by 72000 ((dateOrdinal 2025 12 9 : Nat) : Int) 0 today 28800
          = ((dateOrdinal 2025 12 6 : Nat) : Int)) := by
  refine ⟨?_, ?_, ?_⟩
  · intro est dl tw today spd _ h
    simp [calculate_start_by, h]
  · intro est dl tw today spd hspd h
    rw [calculate_start_by, if_neg (by omega), fdiv_add_sub_one_eq_ceil _ _ hspd]
  · intro today
    rw [calculate_start_by, if_neg (by decide)]
    decide

theorem calculate_start_by_spec_witness :
    (0 : Int) < 28800 ∧ 0 < (72000 : Int) - 0 ∧
    calculate_start_by 72000 500 0 999 28800
      = (500 - 1) - (⌈((72000 - 0 : Int) : ℚ) / ((28800 : Int) : ℚ)⌉ - 1) :=
  ⟨by decide, by decide,
    calculate_start_by_spec.2.1 72000 500 0 999 28800 (by decide) (by decide)⟩

/-- Claim C10: the start-by computation never clamps to today: whenever
work remains, the result is exactly `deadline − days_needed`, does not
depend on today, and lies strictly in the past once the deadline is at or
before today. -/
theorem calculate_start_by_no_clamp :
    ∀ est dl tw today spd : Int, 0 < spd → 0 < est - tw →
      calculate_start_by est dl tw today spd
          = dl - (est - tw + spd - 1).fdiv spd ∧
      1 ≤ (est - tw + spd - 1).fdiv spd ∧
      (∀ today2, calculate_start_by est dl tw today2 spd
          = calculate_start_by est dl tw today spd) ∧
      (dl ≤ today → calculate_start_by est dl tw today spd < today) := by
  intro est dl tw today spd hspd h
  have hform : ∀ t : Int, calculate_start_by est dl tw t spd
      = dl - (est - tw + spd - 1).fdiv spd := by
    intro t
    rw [calculate_start_by, if_neg (by omega)]
    ring
  have hone : 1 ≤ (est - tw + spd - 1).fdiv spd := by
    rw [Int.fdiv_eq_ediv _ hspd.le]
    rw [Int.le_ediv_iff_mul_le hspd]
    omega
  refine ⟨hform today, hone, fun t2 => by rw [hform t2, hform today], fun hdl => ?_⟩
  rw [hform today]
  omega

theorem calculate_start_by_no_clamp_witness :
    (0 : Int) < 28800 ∧ 0 < (72000 : Int) - 0 ∧ (500 : Int) ≤ 741000 ∧
    calculate_start_by 72000 500 0 741000 28800 < 741000 :=
  ⟨by decide, by decide, by decide,
    (calculate_start_by_no_clamp 72000 500 0 741000 28800 (by decide)
      (by decide)).2.2.2 (by decide)⟩

/-! ## Appending a session (claim C9) -/

/-- Claim C9: appending a session commits the row to the session ledger
before the goal reconciliation runs on the appended ledger, and the append
returns the ledger location whether the reconciliation succeeds or raises;
a raising reconciliation leaves the goal ledger untouched. -/
theorem save_session_commits_before_reconcile :
    ∀ (iso : Nat → String) (title : String) (start stop dur : Nat) (st : Store),
      (save_session_csv iso title start stop dur st).1.sessions
          = st.sessions ++ [sessionRowOf iso title start stop dur] ∧
      (save_session_csv iso title start stop dur st).2 = "sessions.csv" ∧
      (∀ g f w, load_goals_csv st.goals
            (st.sessions ++ [sessionRowOf iso title start stop dur]) = .ok (g, f, w) →
          (save_session_csv iso title start stop dur st).1.goals = f) ∧
      (∀ e, load_goals_csv st.goals
            (st.sessions ++ [sessionRowOf iso title start stop dur]) = .error e →
          (save_session_csv iso title start stop dur st).1.goals = st.goals) := by
  intro iso title start stop dur st
  refine ⟨rfl, rfl, ?_, ?_⟩
  · intro g f w h
    simp [save_session_csv, h]
  · intro e h
    simp [save_session_csv, h]

theorem save_session_commits_before_reconcile_witness :
    load_goals_csv []
        ([⟨"x", "oops", "", "", ""⟩] ++
          [sessionRowOf (fun _ => "1984-01-01T00:00:00") "a" 5 9 4])
        = .error (.badTimestamp "oops") ∧
    (save_session_csv (fun _ => "1984-01-01T00:00:00") "a" 5 9 4
        ⟨[⟨"x", "oops", "", "", ""⟩], []⟩).1.goals = [] :=
  ⟨by decide,
    (save_session_commits_before_reconcile (fun _ => "1984-01-01T00:00:00") "a" 5 9 4
        ⟨[⟨"x", "oops", "", "", ""⟩], []⟩).2.2.2 (.badTimestamp "oops") (by decide)⟩

/-! ## Loading the session ledger (claim C1) -/

/-- Counterexample to claim C1 as stated: a ledger holding one well-formed
row and one row with a malformed `start` timestamp makes the load raise,
instead of skipping the corrupt row and returning the well-formed one. -/
theorem load_sessions_abort_on_malformed_timestamp :
    load_sessions_csv
        [⟨"good", "2025-01-02T03:04:05", "2025-01-02T04:04:05", "3600", "01h00m00s"⟩,
          ⟨"bad", "notadate", "2025-01-02T04:04:05", "60", "01m00s"⟩]
      = .error (.badTimestamp "notadate") ∧
    ∀ l : List Session,
      load_sessions_csv
          [⟨"good", "2025-01-02T03:04:05", "2025-01-02T04:04:05", "3600", "01h00m00s"⟩,
            ⟨"bad", "notadate", "2025-01-02T04:04:05", "60", "01m00s"⟩]
        ≠ .ok l := by
  refine ⟨by decide, ?_⟩
  intro l h
  rw [show load_sessions_csv
      [⟨"good", "2025-01-02T03:04:05", "2025-01-02T04:04:05", "3600", "01h00m00s"⟩,
        ⟨"bad", "notadate", "2025-01-02T04:04:05", "60", "01m00s"⟩]
      = .error (.badTimestamp "notadate") from by decide] at h
  exact Except.noConfusion h

theorem tsStep_eq (s : String) (h : s ≠ "" → (parseIsoDatetime s).isSome) :
    tsStep s = .ok (parseIsoDatetime s) := by
  unfold tsStep
  by_cases hs : s = ""
  · rw [if_pos hs, hs]
    rfl
  · rw [if_neg hs]
    obtain ⟨t, ht⟩ := Option.isSome_iff_exists.mp (h hs)
    rw [ht]

theorem durStep_eq (s : String) (h : s ≠ "" → (pyInt s).isSome) :
    durStep s = .ok (if s = "" then 0 else (pyInt s).getD 0) := by
  unfold durStep
  by_cases hs : s = ""
  · rw [if_pos hs, if_pos hs]
  · rw [if_neg hs, if_neg hs]
    obtain ⟨v, hv⟩ := Option.isSome_iff_exists.mp (h hs)
    rw [hv]
    rfl

theorem parseSessionRow_eq (r : RawSessionRow)
    (h1 : r.start ≠ "" → (parseIsoDatetime r.start).isSome)
    (h2 : r.stop ≠ "" → (parseIsoDatetime r.stop).isSome)
    (h3 : r.duration ≠ "" → (pyInt r.duration).isSome) :
    parseSessionRow r = .ok (
      match parseIsoDatetime r.start, parseIsoDatetime r.stop with
      | some st, some en => some ⟨r.title, st, en,
          if r.duration = "" then 0 else (pyInt r.duration).getD 0⟩
      | _, _ => none) := by
  unfold parseSessionRow
  rw [tsStep_eq r.start h1, tsStep_eq r.stop h2, durStep_eq r.duration h3]
  cases parseIsoDatetime r.start <;> cases parseIsoDatetime r.stop <;> rfl

/-- Claim C1, amended: when every non-empty timestamp and duration cell of
the ledger is well formed, the load succeeds and returns exactly the rows
whose start and end timestamps are both present, skipping rows where
either is missing.  (A malformed cell instead raises and aborts the whole
load; see the counterexample.) -/
theorem load_sessions_skip_only_missing_fields :
    ∀ rows : List RawSessionRow,
      (∀ r ∈ rows,
        (r.start ≠ "" → (parseIsoDatetime r.start).isSome) ∧
        (r.stop ≠ "" → (parseIsoDatetime r.stop).isSome) ∧
        (r.duration ≠ "" → (pyInt r.duration).isSome)) →
      load_sessions_csv rows = .ok (rows.filterMap (fun r =>
        match parseIsoDatetime r.start, parseIsoDatetime r.stop with
        | some st, some en => some ⟨r.title, st, en,
            if r.duration = "" then 0 else (pyInt r.duration).getD 0⟩
        | _, _ => none)) := by
  intro rows h
  induction rows with
  | nil => rfl
  | cons r rs ih =>
    have hr := h r (by simp)
    have hrs := ih (fun x hx => h x (by simp [hx]))
    rw [load_sessions_csv, parseSessionRow_eq r hr.1 hr.2.1 hr.2.2, hrs]
    cases hst : parseIsoDatetime r.start <;> cases hen : parseIsoDatetime r.stop <;>
      simp [List.filterMap_cons, hst, hen]

theorem load_sessions_skip_only_missing_fields_witness :
    (∀ r ∈ ([⟨"skip", "", "2025-01-02T03:04:05", "60", ""⟩,
             ⟨"keep", "2025-01-02T03:04:05", "2025-01-02T04:04:05", "3600", ""⟩] :
          List RawSessionRow),
        (r.start ≠ "" → (parseIsoDatetime r.start).isSome) ∧
        (r.stop ≠ "" → (parseIsoDatetime r.stop).isSome) ∧
        (r.duration ≠ "" → (pyInt r.duration).isSome)) ∧
    load_sessions_csv
        [⟨"skip", "", "2025-01-02T03:04:05", "60", ""⟩,
         ⟨"keep", "2025-01-02T03:04:05", "2025-01-02T04:04:05", "3600", ""⟩]
      = .ok (([⟨"skip", "", "2025-01-02T03:04:05", "60", ""⟩,
              ⟨"keep", "2025-01-02T03:04:05", "2025-01-02T04:04:05", "3600", ""⟩] :
            List RawSessionRow).filterMap
          (fun r =>
            match parseIsoDatetime r.start, parseIsoDatetime r.stop with
            | some st, some en => some ⟨r.title, st, en,
                if r.duration = "" then 0 else (pyInt r.duration).getD 0⟩
            | _, _ => none)) :=
  ⟨by decide,
    load_sessions_skip_only_missing_fields
      [⟨"skip", "", "2025-01-02T03:04:05", "60", ""⟩,
       ⟨"keep", "2025-01-02T03:04:05", "2025-01-02T04:04:05", "3600", ""⟩]
      (by decide)⟩

/-! ## Digit strings -/

theorem digitChar_spec : ∀ d : Nat, d < 10 →
    (digitChar d).isDigit = true ∧ (digitChar d).toNat - 48 = d ∧
    (digitChar d).toLower = digitChar d ∧ (digitChar d).isWhitespace = false ∧
    durChar (digitChar d) = true := by decide

theorem natDigitsAux_append : ∀ (fuel n : Nat) (acc : List Char),
    natDigitsAux fuel n acc = natDigitsAux fuel n [] ++ acc := by
  intro fuel
  induction fuel with
  | zero => intro n acc; rfl
  | succ fuel ih =>
    intro n acc
    by_cases h : n < 10
    · simp [natDigitsAux, h]
    · rw [natDigitsAux, if_neg h, natDigitsAux, if_neg h,
        ih (n / 10) (digitChar (n % 10) :: acc), ih (n / 10) [digitChar (n % 10)]]
      simp

theorem natDigitsAux_mem : ∀ (fuel n : Nat) (acc : List Char) (c : Char),
    c ∈ natDigitsAux fuel n acc → (∃ d, d < 10 ∧ c = digitChar d) ∨ c ∈ acc := by
  intro fuel
  induction fuel with
  | zero => intro n acc c hc; exact Or.inr hc
  | succ fuel ih =>
    intro n acc c hc
    by_cases h : n < 10
    · rw [natDigitsAux, if_pos h] at hc
      rcases List.mem_cons.mp hc with hc | hc
      · exact Or.inl ⟨n, h, hc⟩
      · exact Or.inr hc
    · rw [natDigitsAux, if_neg h] at hc
      rcases ih (n / 10) (digitChar (n % 10) :: acc) c hc with hd | hc2
      · exact Or.inl hd
      · rcases List.mem_cons.mp hc2 with hc3 | hc3
        · exact Or.inl ⟨n % 10, Nat.mod_lt _ (by omega), hc3⟩
        · exact Or.inr hc3

theorem pad2_mem (n : Nat) (c : Char) (hc : c ∈ pad2 n) :
    ∃ d, d < 10 ∧ c = digitChar d := by
  unfold pad2 at hc
  by_cases h : n < 10
  · rw [if_pos h] at hc
    rcases List.mem_cons.mp hc with hc | hc
    · exact ⟨0, by omega, by rw [hc]; rfl⟩
    · rcases natDigitsAux_mem _ _ _ _ hc with hd | hd
      · exact hd
      · simp at hd
  · rw [if_neg h] at hc
    rcases natDigitsAux_mem _ _ _ _ hc with hd | hd
    · exact hd
    · simp at hd

theorem format_hms_chars (s : Nat) : ∀ c ∈ (format_hms s).data,
    (∃ d, d < 10 ∧ c = digitChar d) ∨ c = 'h' ∨ c = 'm' ∨ c = 's' := by
  have hm : ∀ (b d : Nat) (c : Char), c ∈ pad2 b ++ ('m' :: (pad2 d ++ ['s'])) →
      (∃ k, k < 10 ∧ c = digitChar k) ∨ c = 'h' ∨ c = 'm' ∨ c = 's' := by
    intro b d c hc
    rcases List.mem_append.mp hc with h1 | h1
    · exact Or.inl (pad2_mem _ _ h1)
    · rcases List.mem_cons.mp h1 with h2 | h2
      · exact Or.inr (Or.inr (Or.inl h2))
      · rcases List.mem_append.mp h2 with h3 | h3
        · exact Or.inl (pad2_mem _ _ h3)
        · rcases List.mem_cons.mp h3 with h4 | h4
          · exact Or.inr (Or.inr (Or.inr h4))
          · simp at h4
  intro c hc
  unfold format_hms at hc
  by_cases h : (s / 60) / 60 ≠ 0
  · rw [if_pos h] at hc
    rcases List.mem_append.mp hc with h1 | h1
    · exact Or.inl (pad2_mem _ _ h1)
    · rcases List.mem_cons.mp h1 with h2 | h2
      · exact Or.inr (Or.inl h2)
      · exact hm _ _ _ h2
  · rw [if_neg h] at hc
    exact hm _ _ _ hc

/-! ## Display formatting (claim C8) -/

/-- Counterexample to claim C8 as stated: the on-screen formatter of the
timer is `format_hms` itself, producing the compact `01h01m01s` at 3661
seconds rather than a distinct colon-separated `1:01:01` display form. -/
theorem display_format_not_colon_form :
    format_duration 3661 = "01h01m01s" ∧ displayFormatColon 3661 = "1:01:01" ∧
    format_duration 3661 ≠ displayFormatColon 3661 :=
  ⟨by decide, by decide, by decide⟩

/-- Claim C8, amended: the on-screen display formatter is exactly the
compact persisted formatter `format_hms` — zero-padded `HHhMMmSSs` when
the hour part is nonzero, else `MMmSSs` — with no colon-separated display
variant: every output character is a digit or a unit letter. -/
theorem display_format_compact :
    ∀ s : Nat,
      format_duration s = format_hms s ∧
      (∀ c ∈ (format_duration s).data, durChar c = true) ∧
      ((s / 60) / 60 ≠ 0 → (format_hms s).data
          = pad2 ((s / 60) / 60) ++
              ('h' :: (pad2 ((s / 60) % 60) ++ ('m' :: (pad2 (s % 60) ++ ['s']))))) ∧
      ((s / 60) / 60 = 0 → (format_hms s).data
          = pad2 ((s / 60) % 60) ++ ('m' :: (pad2 (s % 60) ++ ['s']))) := by
  intro s
  refine ⟨rfl, ?_, ?_, ?_⟩
  · intro c hc
    rcases format_hms_chars s c hc with ⟨d, hd, rfl⟩ | rfl | rfl | rfl
    · exact (digitChar_spec d hd).2.2.2.2
    · decide
    · decide
    · decide
  · intro h
    unfold format_hms
    rw [if_pos h]
  · intro h
    unfold format_hms
    rw [if_neg (by omega)]

theorem display_format_compact_witness :
    (∀ c ∈ (format_duration 3661).data, durChar c = true) ∧
    (3661 / 60) / 60 ≠ 0 ∧
    (format_hms 3661).data
      = pad2 ((3661 / 60) / 60) ++
          ('h' :: (pad2 ((3661 / 60) % 60) ++ ('m' :: (pad2 (3661 % 60) ++ ['s'])))) :=
  ⟨(display_format_compact 3661).2.1, by decide,
    (display_format_compact 3661).2.2.1 (by decide)⟩

/-! ## Duration codec roundtrip (claim C5) -/

theorem scanDur_digit (d : Nat) (cs : List Char) (total : Nat) (p : Option Nat)
    (hd : d < 10) :
    scanDur (digitChar d :: cs) total p
      = scanDur cs total (some (10 * p.getD 0 + d)) := by
  have hstep : scanDur (digitChar d :: cs) total p
      = if (digitChar d).isDigit then
          scanDur cs total (some (10 * p.getD 0 + ((digitChar d).toNat - 48)))
        else if digitChar d = 'h' then
          match p with
          | none => .error .missingNumberBeforeUnit
          | some v => scanDur cs (total + v * 3600) none
        else if digitChar d = 'm' then
          match p with
          | none => .error .missingNumberBeforeUnit
          | some v => scanDur cs (total + v * 60) none
        else if digitChar d = 's' then
          match p with
          | none => .error .missingNumberBeforeUnit
          | some v => scanDur cs (total + v) none
        else .error (.unexpectedChar (digitChar d)) := rfl
  rw [hstep, if_pos (digitChar_spec d hd).1, (digitChar_spec d hd).2.1]

theorem scanDur_natDigitsAux : ∀ (fuel n : Nat) (cs : List Char) (total : Nat)
    (p : Option Nat), n < fuel →
    scanDur (natDigitsAux fuel n cs) total p
      = scanDur cs total (some (p.getD 0 * 10 ^ numDigitsAux fuel n + n)) := by
  intro fuel
  induction fuel with
  | zero => intro n cs total p h; omega
  | succ fuel ih =>
    intro n cs total p h
    by_cases h10 : n < 10
    · rw [natDigitsAux, if_pos h10, numDigitsAux, if_pos h10,
        scanDur_digit n cs total p h10]
      have : 10 * p.getD 0 + n = p.getD 0 * 10 ^ 1 + n := by ring
      rw [this]
    · rw [natDigitsAux, if_neg h10, numDigitsAux, if_neg h10,
        ih (n / 10) (digitChar (n % 10) :: cs) total p (by omega),
        scanDur_digit (n % 10) cs total _ (Nat.mod_lt _ (by omega))]
      have hdm : 10 * (n / 10) + n % 10 = n := by omega
      have harith : 10 * (Option.getD (some (p.getD 0 * 10 ^ numDigitsAux fuel (n / 10) + n / 10)) 0)
            + n % 10
          = p.getD 0 * 10 ^ (numDigitsAux fuel (n / 10) + 1) + n := by
        rw [Option.getD_some, pow_succ]
        calc 10 * (p.getD 0 * 10 ^ numDigitsAux fuel (n / 10) + n / 10) + n % 10
            = p.getD 0 * (10 ^ numDigitsAux fuel (n / 10) * 10)
                + (10 * (n / 10) + n % 10) := by ring
          _ = p.getD 0 * (10 ^ numDigitsAux fuel (n / 10) * 10) + n := by rw [hdm]
      rw [harith]

theorem scanDur_pad2 (n : Nat) (cs : List Char) (total : Nat) :
    scanDur (pad2 n ++ cs) total none = scanDur cs total (some n) := by
  unfold pad2
  by_cases h : n < 10
  · rw [if_pos h, List.cons_append,
      show ('0' : Char) = digitChar 0 from rfl,
      scanDur_digit 0 _ total none (by omega),
      natDigits, ← natDigitsAux_append,
      scanDur_natDigitsAux (n + 1) n cs total _ (by omega)]
    simp
  · rw [if_neg h, natDigits, ← natDigitsAux_append,
      scanDur_natDigitsAux (n + 1) n cs total none (by omega)]
    simp

theorem scanDur_unit_h (cs : List Char) (total v : Nat) :
    scanDur ('h' :: cs) total (some v) = scanDur cs (total + v * 3600) none := rfl

theorem scanDur_unit_m (cs : List Char) (total v : Nat) :
    scanDur ('m' :: cs) total (some v) = scanDur cs (total + v * 60) none := rfl

theorem scanDur_unit_s (cs : List Char) (total v : Nat) :
    scanDur ('s' :: cs) total (some v) = scanDur cs (total + v) none := rfl

theorem scanDur_nil_none (total : Nat) :
    scanDur [] total none = if total = 0 then .error .nonPositive else .ok total := rfl

theorem map_id_of_mem {α : Type} (f : α → α) :
    ∀ l : List α, (∀ c ∈ l, f c = c) → l.map f = l := by
  intro l
  induction l with
  | nil => intro _; rfl
  | cons c cs ih =>
    intro h
    rw [List.map_cons, h c (List.mem_cons_self c cs),
      ih (fun x hx => h x (List.mem_cons_of_mem c hx))]

theorem dropWhile_of_not (p : Char → Bool) :
    ∀ l : List Char, (∀ c ∈ l, p c = false) → l.dropWhile p = l := by
  intro l h
  cases l with
  | nil => rfl
  | cons c cs => simp [List.dropWhile_cons, h c (List.mem_cons_self c cs)]

theorem pyStrip_of_clean (l : List Char) (h : ∀ c ∈ l, c.isWhitespace = false) :
    pyStrip l = l := by
  unfold pyStrip
  rw [dropWhile_of_not _ l h,
    dropWhile_of_not _ l.reverse (fun c hc => h c (List.mem_reverse.mp hc)),
    List.reverse_reverse]

theorem format_hms_clean (s : Nat) :
    (pyStrip (format_hms s).data).map Char.toLower = (format_hms s).data := by
  have h1 : ∀ c ∈ (format_hms s).data, c.isWhitespace = false := by
    intro c hc
    rcases format_hms_chars s c hc with ⟨d, hd, rfl⟩ | rfl | rfl | rfl
    exacts [(digitChar_spec d hd).2.2.2.1, by decide, by decide, by decide]
  have h2 : ∀ c ∈ (format_hms s).data, c.toLower = c := by
    intro c hc
    rcases format_hms_chars s c hc with ⟨d, hd, rfl⟩ | rfl | rfl | rfl
    exacts [(digitChar_spec d hd).2.2.1, by decide, by decide, by decide]
  rw [pyStrip_of_clean _ h1, map_id_of_mem _ _ h2]

theorem parse_format_hms (s : Nat) (hs : 1 ≤ s) :
    parse_duration (format_hms s) = .ok s := by
  unfold parse_duration
  rw [format_hms_clean s]
  by_cases hh : (s / 60) / 60 ≠ 0
  · have hd : (format_hms s).data
        = pad2 ((s / 60) / 60) ++
            ('h' :: (pad2 ((s / 60) % 60) ++ ('m' :: (pad2 (s % 60) ++ ['s'])))) := by
      unfold format_hms
      rw [if_pos hh]
    rw [hd, if_neg (by simp), scanDur_pad2, scanDur_unit_h, scanDur_pad2,
      scanDur_unit_m, scanDur_pad2, scanDur_unit_s, scanDur_nil_none,
      if_neg (by omega)]
    congr 1
    omega
  · have hd : (format_hms s).data
        = pad2 ((s / 60) % 60) ++ ('m' :: (pad2 (s % 60) ++ ['s'])) := by
      unfold format_hms
      rw [if_neg hh]
    rw [hd, if_neg (by simp), scanDur_pad2, scanDur_unit_m, scanDur_pad2,
      scanDur_unit_s, scanDur_nil_none, if_neg (by omega)]
    congr 1
    omega

theorem scanDur_pos : ∀ (cs : List Char) (total : Nat) (p : Option Nat) (v : Nat),
    scanDur cs total p = .ok v → 0 < v := by
  intro cs
  induction cs with
  | nil =>
    intro total p v h
    cases p with
    | none =>
      rw [scanDur_nil_none] at h
      by_cases ht : total = 0
      · rw [if_pos ht] at h
        exact absurd h (by simp)
      · rw [if_neg ht] at h
        injection h with hv
        omega
    | some w =>
      have hw : scanDur [] total (some w)
          = if total + w * 60 = 0 then .error .nonPositive
            else .ok (total + w * 60) := rfl
      rw [hw] at h
      by_cases ht : total + w * 60 = 0
      · rw [if_pos ht] at h
        exact absurd h (by simp)
      · rw [if_neg ht] at h
        injection h with hv
        omega
  | cons c cs ih =>
    intro total p v h
    unfold scanDur at h
    by_cases hd : c.isDigit
    · rw [if_pos hd] at h
      exact ih _ _ _ h
    · rw [if_neg hd] at h
      by_cases hch : c = 'h'
      · rw [if_pos hch] at h
        cases p with
        | none => exact absurd h (by simp)
        | some w => exact ih _ _ _ h
      · rw [if_neg hch] at h
        by_cases hcm : c = 'm'
        · rw [if_pos hcm] at h
          cases p with
          | none => exact absurd h (by simp)
          | some w => exact ih _ _ _ h
        · rw [if_neg hcm] at h
          by_cases hcs : c = 's'
          · rw [if_pos hcs] at h
            cases p with
            | none => exact absurd h (by simp)
            | some w => exact ih _ _ _ h
          · rw [if_neg hcs] at h
            exact absurd h (by simp)

/-- Counterexample to claim C5 as stated: at `s = 0` the formatted text is
`00m00s`, which the parser rejects as a non-positive duration instead of
returning 0, so `parse(format(s)) = s` fails for `s = 0`. -/
theorem parse_format_zero_fails :
    format_hms 0 = "00m00s" ∧
    parse_duration (format_hms 0) = .error .nonPositive ∧
    parse_duration (format_hms 0) ≠ .ok 0 :=
  ⟨by decide, by decide, by decide⟩

/-- Claim C5, amended: parsing inverts compact formatting for every
positive second count (the parser rejects a zero total, so `s = 0` is
excluded), and every successfully parsed duration string yields a positive
value on which format-then-parse is the identity. -/
theorem duration_codec_roundtrip :
    (∀ s : Nat, 1 ≤ s → parse_duration (format_hms s) = .ok s) ∧
    (∀ (x : String) (v : Nat), parse_duration x = .ok v →
        0 < v ∧ parse_duration (format_hms v) = .ok v) := by
  constructor
  · exact parse_format_hms
  · intro x v h
    have hv : 0 < v := by
      unfold parse_duration at h
      split at h
      · exact absurd h (by simp)
      · exact scanDur_pos _ _ _ _ h
    exact ⟨hv, parse_format_hms v hv⟩

theorem duration_codec_roundtrip_witness :
    (1 ≤ 3661 ∧ parse_duration (format_hms 3661) = .ok 3661) ∧
    (parse_duration "90" = .ok 5400 ∧ 0 < 5400 ∧
      parse_duration (format_hms 5400) = .ok 5400) :=
  ⟨⟨by decide, duration_codec_roundtrip.1 3661 (by decide)⟩,
    ⟨by decide, (duration_codec_roundtrip.2 "90" 5400 (by decide)).1,
      (duration_codec_roundtrip.2 "90" 5400 (by decide)).2⟩⟩

/-! ## Goal ledger time-worked invariant (claim C2) -/

theorem gtw_foldl (title : String) (ats : Option Nat) :
    ∀ (l : List Session) (init : Int),
      l.foldl
        (fun total row =>
          if pyStripStr row.title = pyStripStr title then
            match ats with
            | some ts => if row.start < ts then total else total + row.duration
            | none => total + row.duration
          else total) init
      = init + ((l.filter (fun r =>
          (pyStripStr r.title == pyStripStr title) &&
            match ats with
            | some ts => decide (ts ≤ r.start)
            | none => true)).map Session.duration).sum := by
  intro l
  induction l with
  | nil => intro init; simp
  | cons r rs ih =>
    intro init
    rw [List.foldl_cons, List.filter_cons]
    by_cases h1 : pyStripStr r.title = pyStripStr title
    · cases ats with
      | none =>
        simp only [if_pos h1, ih, h1, beq_self_eq_true, Bool.true_and,
          Bool.and_true, if_pos, List.map_cons, List.sum_cons]
        omega
      | some ts =>
        by_cases h2 : r.start < ts
        · have hd : decide (ts ≤ r.start) = false := by
            simp
            omega
          simp only [if_pos h1, ih, h1, beq_self_eq_true, Bool.true_and, hd,
            Bool.and_false]
          simp [h2]
        · have hd : decide (ts ≤ r.start) = true := by
            simp
            omega
          simp only [if_pos h1, ih, h1, beq_self_eq_true, Bool.true_and, hd,
            Bool.and_true]
          simp [h2]
          omega
    · have hb : (pyStripStr r.title == pyStripStr title) = false := by
        simp [h1]
      simp only [if_neg h1, ih, hb, Bool.false_and]
      cases ats <;> simp

theorem get_time_worked_eq_sum (sessions : List Session) (title : String)
    (ats : Option Nat) :
    get_time_worked_for_title sessions title ats
      = ((sessions.filter (fun r =>
          (pyStripStr r.title == pyStripStr title) &&
            match ats with
            | some ts => decide (ts ≤ r.start)
            | none => true)).map Session.duration).sum := by
  unfold get_time_worked_for_title
  rw [gtw_foldl]
  simp

theorem updateTW_fields (sessions : List Session) (g : Goal) :
    (updateTW sessions g).title = g.title ∧
    (updateTW sessions g).estimate_timestamp = g.estimate_timestamp ∧
    (updateTW sessions g).estimate_seconds = g.estimate_seconds ∧
    (updateTW sessions g).estimate_formatted = g.estimate_formatted ∧
    (updateTW sessions g).deadline = g.deadline ∧
    (updateTW sessions g).start_by = g.start_by ∧
    (updateTW sessions g).time_worked_seconds = goalNewTime sessions g := by
  unfold updateTW
  by_cases h1 : g.time_worked_seconds ≠ goalNewTime sessions g
  · simp [h1]
  · rw [if_neg h1]
    by_cases h2 : g.time_worked_formatted = ""
    · simp [h2]
      omega
    · simp [h2]
      omega

theorem ensureEstF_fields (g : Goal) :
    (ensureEstF g).title = g.title ∧
    (ensureEstF g).estimate_timestamp = g.estimate_timestamp ∧
    (ensureEstF g).estimate_seconds = g.estimate_seconds ∧
    (ensureEstF g).deadline = g.deadline ∧
    (ensureEstF g).start_by = g.start_by ∧
    (ensureEstF g).time_worked_seconds = g.time_worked_seconds ∧
    (ensureEstF g).time_worked_formatted = g.time_worked_formatted := by
  unfold ensureEstF
  by_cases h : 0 < g.estimate_seconds ∧ g.estimate_formatted = ""
  · simp [h]
  · simp [h]

theorem updateAllGoals_eq (sessions : List Session) :
    ∀ gs : List Goal,
      updateAllGoals sessions gs
        = (gs.map (fun g => ensureEstF (updateTW sessions g)),
            gs.any (fun g => decide (g.time_worked_seconds ≠ goalNewTime sessions g))) := by
  intro gs
  induction gs with
  | nil => rfl
  | cons g gs ih =>
    rw [updateAllGoals, ih]
    simp [updateGoalTime]

theorem load_goals_pure_goals (file : List GoalRow) (sessions : List Session) :
    (load_goals_pure file sessions).1
      = (addMissing (parsedGoals file) (sessionTitles sessions)).1.map
          (fun g => ensureEstF (updateTW sessions g)) := by
  unfold load_goals_pure
  simp only [updateAllGoals_eq]
  split <;> rfl

/-- Claim C2: every goal returned by the goal-ledger load carries
`time_worked_seconds` equal to the sum of `duration_seconds` over the
sessions whose stripped title matches the goal, restricted to sessions
with `start ≥ estimate_timestamp` when the goal has one, unrestricted
otherwise. -/
theorem load_goals_time_worked_invariant :
    ∀ (gf : List GoalRow) (sf : List RawSessionRow) (sessions : List Session)
      (goals : List Goal) (f : List GoalRow) (w : Bool),
      load_sessions_csv sf = .ok sessions →
      load_goals_csv gf sf = .ok (goals, f, w) →
      ∀ g ∈ goals, g.time_worked_seconds
        = ((sessions.filter (fun r =>
            (pyStripStr r.title == pyStripStr g.title) &&
              match g.estimate_timestamp with
              | some ts => decide (ts ≤ r.start)
              | none => true)).map Session.duration).sum := by
  intro gf sf sessions goals f w hs hg
  unfold load_goals_csv at hg
  rw [hs] at hg
  injection hg with hg
  have hgoals : goals = (load_goals_pure gf sessions).1 := by rw [hg]
  rw [load_goals_pure_goals] at hgoals
  intro g hgmem
  rw [hgoals] at hgmem
  obtain ⟨x, _, hx⟩ := List.mem_map.mp hgmem
  have htw : g.time_worked_seconds = goalNewTime sessions x := by
    rw [← hx, (ensureEstF_fields _).2.2.2.2.2.1, (updateTW_fields _ _).2.2.2.2.2.2]
  have htitle : g.title = x.title := by
    rw [← hx, (ensureEstF_fields _).1, (updateTW_fields _ _).1]
  have hets : g.estimate_timestamp = x.estimate_timestamp := by
    rw [← hx, (ensureEstF_fields _).2.1, (updateTW_fields _ _).2.1]
  rw [htw, htitle, hets]
  unfold goalNewTime
  exact get_time_worked_eq_sum sessions x.title x.estimate_timestamp

theorem load_goals_time_worked_invariant_witness :
    load_sessions_csv [⟨"a", "0001-01-01T00:00:00", "0001-01-01T01:00:00", "3600", ""⟩]
        = .ok [⟨"a", 86400, 90000, 3600⟩] ∧
    load_goals_csv [] [⟨"a", "0001-01-01T00:00:00", "0001-01-01T01:00:00", "3600", ""⟩]
        = .ok (load_goals_pure [] [⟨"a", 86400, 90000, 3600⟩]) ∧
    ∀ g ∈ (load_goals_pure [] [⟨"a", 86400, 90000, 3600⟩]).1,
      g.time_worked_seconds
        = ((([⟨"a", 86400, 90000, 3600⟩] : List Session).filter (fun r =>
            (pyStripStr r.title == pyStripStr g.title) &&
              match g.estimate_timestamp with
              | some ts => decide (ts ≤ r.start)
              | none => true)).map Session.duration).sum :=
  ⟨by decide, by decide,
    load_goals_time_worked_invariant []
      [⟨"a", "0001-01-01T00:00:00", "0001-01-01T01:00:00", "3600", ""⟩]
      [⟨"a", 86400, 90000, 3600⟩]
      (load_goals_pure [] [⟨"a", 86400, 90000, 3600⟩]).1
      (load_goals_pure [] [⟨"a", 86400, 90000, 3600⟩]).2.1
      (load_goals_pure [] [⟨"a", 86400, 90000, 3600⟩]).2.2
      (by decide) (by decide)⟩

/-! ## Finishing a goal (claim C7) -/

theorem finishGoals_none_iff (t : String) :
    ∀ gs : List Goal, finishGoals t gs = none ↔ ∀ x ∈ gs, pyStripStr x.title ≠ t := by
  intro gs
  induction gs with
  | nil => simp [finishGoals]
  | cons g gs ih =>
    by_cases h : pyStripStr g.title = t
    · simp [finishGoals, h]
    · simp [finishGoals, h, ih]

theorem finishGoals_found (t : String) (g : Goal) (post : List Goal)
    (hg : pyStripStr g.title = t) :
    ∀ pre : List Goal, (∀ x ∈ pre, pyStripStr x.title ≠ t) →
      finishGoals t (pre ++ g :: post) = some (pre ++ clearGoal g :: post) := by
  intro pre
  induction pre with
  | nil => intro _; simp [finishGoals, hg]
  | cons p ps ih =>
    intro h
    have hp : pyStripStr p.title ≠ t := h p (by simp)
    simp [finishGoals, hp, ih (fun x hx => h x (by simp [hx]))]

theorem load_goals_pure_no_write : ∀ (file : List GoalRow) (sessions : List Session)
    (g : List Goal) (f : List GoalRow),
    load_goals_pure file sessions = (g, f, false) → f = file := by
  intro file sessions g f h
  simp only [load_goals_pure] at h
  split at h
  · exact absurd (congrArg (fun p => p.2.2) h) (by simp)
  · have := congrArg (fun p => p.2.1) h
    simpa using this.symm

/-- Claim C7, amended: finishing an existing title clears the estimate
fields of the first matching goal (estimate zeroed, formatted text,
timestamp, deadline and start-by emptied) while keeping both time-worked
fields, and rewrites the ledger accordingly; finishing a missing title
exits with code 1 and persists nothing beyond what the goal-ledger load
itself reconciled — in particular, when the load performed no write the
ledger file is exactly unchanged.  (The load may write; see the
counterexample.) -/
theorem finish_run_spec :
    ∀ (title : String) (st : Store) (goals : List Goal) (f1 : List GoalRow) (w : Bool),
      pyStripStr title ≠ "" →
      load_goals_csv st.goals st.sessions = .ok (goals, f1, w) →
      ((∀ x ∈ goals, pyStripStr x.title ≠ pyStripStr title) →
          finish_run title st = .ok (1, f1) ∧ (w = false → f1 = st.goals)) ∧
      (∀ (pre : List Goal) (g : Goal) (post : List Goal),
          goals = pre ++ g :: post →
          (∀ x ∈ pre, pyStripStr x.title ≠ pyStripStr title) →
          pyStripStr g.title = pyStripStr title →
          finish_run title st
              = .ok (0, (pre ++ clearGoal g :: post).map serializeGoal) ∧
            (clearGoal g).estimate_seconds = 0 ∧
            (clearGoal g).estimate_formatted = "" ∧
            (clearGoal g).estimate_timestamp = none ∧
            (clearGoal g).deadline = none ∧
            (clearGoal g).start_by = none ∧
            (clearGoal g).time_worked_seconds = g.time_worked_seconds ∧
            (clearGoal g).time_worked_formatted = g.time_worked_formatted) := by
  intro title st goals f1 w ht hload
  constructor
  · intro hnone
    constructor
    · simp only [finish_run]
      rw [if_neg ht, hload]
      dsimp only
      rw [(finishGoals_none_iff (pyStripStr title) goals).mpr hnone]
    · intro hw
      subst hw
      unfold load_goals_csv at hload
      cases hsess : load_sessions_csv st.sessions with
      | error e => rw [hsess] at hload; exact absurd hload (by simp)
      | ok sessions =>
        rw [hsess] at hload
        injection hload with hload
        exact load_goals_pure_no_write _ _ _ _ hload
  · intro pre g post hsplit hpre hg
    refine ⟨?_, rfl, rfl, rfl, rfl, rfl, rfl, rfl⟩
    simp only [finish_run]
    rw [if_neg ht, hload, hsplit]
    dsimp only
    rw [finishGoals_found (pyStripStr title) g post hg pre hpre]

/-- Counterexample to claim C7 as stated: with an empty goals file and one
session titled `a`, finishing the missing title `missing` exits with
`GoalNotFound` but the goal ledger has changed — the load-time
reconciliation inserted and persisted a goal row for `a`. -/
theorem finish_missing_title_writes_reconciliation :
    finish_run "missing"
        ⟨[⟨"a", "0001-01-01T00:00:00", "0001-01-01T01:00:00", "3600", ""⟩], []⟩
      = .ok (1, [⟨"a", none, "", none, none, some 3600, "01h00m00s", none⟩]) ∧
    ([⟨"a", none, "", none, none, some 3600, "01h00m00s", none⟩] : List GoalRow)
      ≠ [] :=
  ⟨by decide, by decide⟩

theorem finish_run_spec_witness :
    pyStripStr "x" ≠ "" ∧
    load_goals_csv [⟨"x", some 7200, "02h00m00s", some 100, some 5, none, "", some 9⟩] []
      = .ok ([⟨"x", 7200, "02h00m00s", some 100, some 5, 0, "", some 9⟩],
          [⟨"x", some 7200, "02h00m00s", some 100, some 5, none, "", some 9⟩], false) ∧
    pyStripStr (Goal.title ⟨"x", 7200, "02h00m00s", some 100, some 5, 0, "", some 9⟩)
      = pyStripStr "x" ∧
    finish_run "x"
        ⟨[], [⟨"x", some 7200, "02h00m00s", some 100, some 5, none, "", some 9⟩]⟩
      = .ok (0, ([] ++ clearGoal ⟨"x", 7200, "02h00m00s", some 100, some 5, 0, "", some 9⟩
            :: []).map serializeGoal) ∧
    (∀ x ∈ ([⟨"x", 7200, "02h00m00s", some 100, some 5, 0, "", some 9⟩] : List Goal),
        pyStripStr x.title ≠ pyStripStr "zzz") ∧
    finish_run "zzz"
        ⟨[], [⟨"x", some 7200, "02h00m00s", some 100, some 5, none, "", some 9⟩]⟩
      = .ok (1, [⟨"x", some 7200, "02h00m00s", some 100, some 5, none, "", some 9⟩]) :=
  ⟨by decide, by decide, by decide,
    ((finish_run_spec "x"
        ⟨[], [⟨"x", some 7200, "02h00m00s", some 100, some 5, none, "", some 9⟩]⟩
        [⟨"x", 7200, "02h00m00s", some 100, some 5, 0, "", some 9⟩]
        [⟨"x", some 7200, "02h00m00s", some 100, some 5, none, "", some 9⟩] false
        (by decide) (by decide)).2
      [] ⟨"x", 7200, "02h00m00s", some 100, some 5, 0, "", some 9⟩ []
      rfl (by simp) (by decide)).1,
    by decide,
    ((finish_run_spec "zzz"
        ⟨[], [⟨"x", some 7200, "02h00m00s", some 100, some 5, none, "", some 9⟩]⟩
        [⟨"x", 7200, "02h00m00s", some 100, some 5, 0, "", some 9⟩]
        [⟨"x", some 7200, "02h00m00s", some 100, some 5, none, "", some 9⟩] false
        (by decide) (by decide)).1 (by decide)).1⟩

/-! ## Goal ledger idempotence (claim C4) -/

theorem dropWhile_dropWhile (p : Char → Bool) :
    ∀ l : List Char, (l.dropWhile p).dropWhile p = l.dropWhile p := by
  intro l
  induction l with
  | nil => rfl
  | cons c cs ih =>
    by_cases h : p c
    · simp [List.dropWhile_cons, h, ih]
    · simp [List.dropWhile_cons, h]

theorem dropWhile_head?_false (p : Char → Bool) :
    ∀ (l : List Char) (x : Char), (l.dropWhile p).head? = some x → p x = false := by
  intro l
  induction l with
  | nil => intro x h; simp at h
  | cons c cs ih =>
    intro x h
    by_cases hc : p c
    · rw [List.dropWhile_cons, if_pos hc] at h
      exact ih x h
    · rw [List.dropWhile_cons, if_neg hc] at h
      simp at h
      rw [← h]
      simpa using hc

theorem dropWhile_of_head?_false (p : Char → Bool) (l : List Char)
    (h : ∀ x, l.head? = some x → p x = false) : l.dropWhile p = l := by
  cases l with
  | nil => rfl
  | cons c cs =>
    rw [List.dropWhile_cons, if_neg]
    simp [h c rfl]

theorem getLast?_dropWhile (p : Char → Bool) :
    ∀ l : List Char, l.dropWhile p ≠ [] → (l.dropWhile p).getLast? = l.getLast? := by
  intro l
  induction l with
  | nil => intro h; simp at h
  | cons c cs ih =>
    intro h
    by_cases hc : p c
    · rw [List.dropWhile_cons, if_pos hc] at h ⊢
      have hcs : cs ≠ [] := by
        intro he
        rw [he] at h
        simp at h
      rw [ih h]
      cases cs with
      | nil => exact absurd rfl hcs
      | cons d ds => rw [List.getLast?_cons_cons]
    · rw [List.dropWhile_cons, if_neg hc]

theorem pyStrip_idem (l : List Char) : pyStrip (pyStrip l) = pyStrip l := by
  unfold pyStrip
  by_cases hv : (l.dropWhile Char.isWhitespace).reverse.dropWhile Char.isWhitespace = []
  · rw [hv]
    rfl
  · have step1 : ((l.dropWhile Char.isWhitespace).reverse.dropWhile
          Char.isWhitespace).reverse.dropWhile Char.isWhitespace
        = ((l.dropWhile Char.isWhitespace).reverse.dropWhile Char.isWhitespace).reverse := by
      apply dropWhile_of_head?_false
      intro x hx
      rw [List.head?_reverse] at hx
      have hx2 : (l.dropWhile Char.isWhitespace).reverse.getLast? = some x := by
        rw [← getLast?_dropWhile Char.isWhitespace _ hv]
        exact hx
      rw [List.getLast?_reverse] at hx2
      exact dropWhile_head?_false Char.isWhitespace l x hx2
    rw [step1, List.reverse_reverse, dropWhile_dropWhile]

theorem pyStripStr_idem (s : String) : pyStripStr (pyStripStr s) = pyStripStr s := by
  unfold pyStripStr
  rw [show (String.mk (pyStrip s.data)).data = pyStrip s.data from rfl, pyStrip_idem]

theorem format_hms_no_ws (s : Nat) :
    ∀ c ∈ (format_hms s).data, c.isWhitespace = false := by
  intro c hc
  rcases format_hms_chars s c hc with ⟨d, hd, rfl⟩ | rfl | rfl | rfl
  exacts [(digitChar_spec d hd).2.2.2.1, by decide, by decide, by decide]

theorem pyStripStr_format (n : Nat) : pyStripStr (format_hms n) = format_hms n := by
  unfold pyStripStr
  rw [pyStrip_of_clean _ (format_hms_no_ws n)]

theorem format_hms_ne_empty (n : Nat) : format_hms n ≠ "" := by
  intro h
  have hd := congrArg String.data h
  unfold format_hms at hd
  by_cases hh : (n / 60) / 60 ≠ 0
  · rw [if_pos hh] at hd
    simp at hd
  · rw [if_neg hh] at hd
    simp at hd

theorem pyStripStr_empty : pyStripStr "" = "" := rfl

theorem fill_strip_fix (cond : Prop) [Decidable cond] (s : String) (n : Nat) :
    pyStripStr (if cond then format_hms n else pyStripStr s)
      = (if cond then format_hms n else pyStripStr s) := by
  by_cases h : cond
  · rw [if_pos h]
    exact pyStripStr_format n
  · rw [if_neg h]
    exact pyStripStr_idem s

theorem fill_pos_ne_empty (s : String) (v : Int) (hv : 0 < v) :
    (if pyStripStr s = "" ∧ 0 < v then format_hms v.toNat else pyStripStr s) ≠ "" := by
  by_cases h : pyStripStr s = "" ∧ 0 < v
  · rw [if_pos h]
    exact format_hms_ne_empty _
  · rw [if_neg h]
    intro he
    exact h ⟨he, hv⟩

theorem parseGoalRow_inv (r : GoalRow) (x : Goal) (h : parseGoalRow r = some x) :
    GoalInv x := by
  simp only [parseGoalRow] at h
  by_cases ht : pyStripStr r.title = ""
  · rw [if_pos ht] at h
    exact absurd h (by simp)
  · rw [if_neg ht] at h
    injection h with h
    subst h
    refine ⟨pyStripStr_idem _, ht, fill_strip_fix _ _ _, fill_strip_fix _ _ _, ?_, ?_⟩
    · exact fun hp => fill_pos_ne_empty _ _ hp
    · exact fun hp => fill_pos_ne_empty _ _ hp

theorem blankGoal_inv (t : String) (h1 : pyStripStr t = t) (h2 : t ≠ "") :
    GoalInv (blankGoal t) :=
  ⟨h1, h2, pyStripStr_empty, pyStripStr_empty, by simp [blankGoal], by simp [blankGoal]⟩

theorem sessionTitles_val (sessions : List Session) :
    ∀ t ∈ sessionTitles sessions, pyStripStr t = t ∧ t ≠ "" := by
  intro t ht
  unfold sessionTitles at ht
  rw [List.mem_dedup] at ht
  obtain ⟨hmem, hne⟩ := List.mem_filter.mp ht
  obtain ⟨s, _, hs⟩ := List.mem_map.mp hmem
  refine ⟨?_, by simpa using hne⟩
  rw [← hs, pyStripStr_idem]

theorem strip_fix_ite (c : Prop) [Decidable c] (n : Nat) :
    pyStripStr (if c then format_hms n else "")
      = (if c then format_hms n else "") := by
  by_cases h : c
  · rw [if_pos h, pyStripStr_format]
  · rw [if_neg h, pyStripStr_empty]

theorem updateTW_cases (sessions : List Session) (x : Goal) :
    updateTW sessions x
        = { x with
              time_worked_seconds := goalNewTime sessions x
              time_worked_formatted :=
                if 0 < goalNewTime sessions x
                then format_hms (goalNewTime sessions x).toNat else "" } ∨
      (updateTW sessions x = x ∧
        x.time_worked_seconds = goalNewTime sessions x ∧
        x.time_worked_formatted ≠ "") := by
  unfold updateTW
  by_cases h1 : x.time_worked_seconds ≠ goalNewTime sessions x
  · rw [if_pos h1]
    exact Or.inl rfl
  · rw [if_neg h1]
    push_neg at h1
    by_cases h2 : x.time_worked_formatted = ""
    · rw [if_pos h2]
      refine Or.inl ?_
      rw [← h1]
    · rw [if_neg h2]
      exact Or.inr ⟨rfl, h1, h2⟩

theorem updateTW_twf_pos (sessions : List Session) (x : Goal)
    (hx : 0 < x.time_worked_seconds → x.time_worked_formatted ≠ "") :
    0 < (updateTW sessions x).time_worked_seconds →
      (updateTW sessions x).time_worked_formatted ≠ "" := by
  rcases updateTW_cases sessions x with h | ⟨h, _, _⟩
  · rw [h]
    intro hpos
    simp only at hpos ⊢
    rw [if_pos hpos]
    exact format_hms_ne_empty _
  · rw [h]
    exact hx

theorem updateTW_twf_fix (sessions : List Session) (x : Goal)
    (hx : pyStripStr x.time_worked_formatted = x.time_worked_formatted) :
    pyStripStr (updateTW sessions x).time_worked_formatted
      = (updateTW sessions x).time_worked_formatted := by
  rcases updateTW_cases sessions x with h | ⟨h, _, _⟩
  · rw [h]
    exact strip_fix_ite _ _
  · rw [h]
    exact hx

theorem pass_inv (sessions : List Session) (x : Goal) (hx : GoalInv x) :
    GoalInv (ensureEstF (updateTW sessions x)) := by
  obtain ⟨hx1, hx2, hx3, hx4, hx5, hx6⟩ := hx
  have hf := updateTW_fields sessions x
  have htwfix := updateTW_twf_fix sessions x hx4
  have htwpos := updateTW_twf_pos sessions x hx6
  unfold ensureEstF
  by_cases hc : 0 < (updateTW sessions x).estimate_seconds ∧
      (updateTW sessions x).estimate_formatted = ""
  · rw [if_pos hc]
    exact ⟨by rw [hf.1]; exact hx1, by rw [hf.1]; exact hx2,
      pyStripStr_format _, htwfix,
      fun _ => format_hms_ne_empty _, htwpos⟩
  · rw [if_neg hc]
    refine ⟨by rw [hf.1]; exact hx1, by rw [hf.1]; exact hx2,
      by rw [hf.2.2.2.1]; exact hx3, htwfix, ?_, htwpos⟩
    intro hp he
    exact hc ⟨hp, he⟩

theorem parse_serialize_roundtrip (g : Goal) (hinv : GoalInv g) :
    parseGoalRow (serializeGoal g) = some g := by
  obtain ⟨t, es, ef, ets, dl, tw, twf, sb⟩ := g
  obtain ⟨h1, h2, h3, h4, h5, h6⟩ := hinv
  simp only at h1 h2 h3 h4 h5 h6
  have hne1 : ¬(ef = "" ∧ 0 < es) := fun h => h5 h.2 h.1
  have hne2 : ¬(twf = "" ∧ 0 < tw) := fun h => h6 h.2 h.1
  have hser : serializeGoal ⟨t, es, ef, ets, dl, tw, twf, sb⟩
      = ⟨t, if es ≠ 0 then some es else none, ef, ets, dl,
          if tw ≠ 0 then some tw else none, twf, sb⟩ := by
    simp only [serializeGoal]
    rw [if_neg hne1, if_neg hne2]
  rw [hser]
  simp only [parseGoalRow]
  rw [h1, if_neg h2]
  have he : (if es ≠ 0 then some es else none).getD 0 = es := by
    by_cases h : es = 0
    · simp [h]
    · simp [h]
  have ht : (if tw ≠ 0 then some tw else none).getD 0 = tw := by
    by_cases h : tw = 0
    · simp [h]
    · simp [h]
  rw [he, ht, h3, h4, if_neg hne1, if_neg hne2]

theorem dictInsert_mem (gs : List Goal) (g x : Goal) (h : x ∈ dictInsert gs g) :
    x ∈ gs ∨ x = g := by
  unfold dictInsert at h
  by_cases hc : gs.any (fun y => y.title = g.title)
  · rw [if_pos hc] at h
    obtain ⟨y, hy, hxy⟩ := List.mem_map.mp h
    by_cases ht : y.title = g.title
    · rw [if_pos ht] at hxy
      exact Or.inr hxy.symm
    · rw [if_neg ht] at hxy
      exact Or.inl (hxy ▸ hy)
  · rw [if_neg hc] at h
    rcases List.mem_append.mp h with h | h
    · exact Or.inl h
    · exact Or.inr (by simpa using h)

theorem dictInsert_nodup (gs : List Goal) (g : Goal)
    (h : List.Pairwise (fun a b => a.title ≠ b.title) gs) :
    List.Pairwise (fun a b => a.title ≠ b.title) (dictInsert gs g) := by
  unfold dictInsert
  by_cases hc : gs.any (fun y => y.title = g.title)
  · rw [if_pos hc]
    have hpres : ∀ y : Goal,
        ((if y.title = g.title then g else y) : Goal).title = y.title := by
      intro y
      by_cases ht : y.title = g.title
      · rw [if_pos ht, ht]
      · rw [if_neg ht]
    rw [List.pairwise_map]
    refine h.imp ?_
    intro a b hab
    rw [hpres a, hpres b]
    exact hab
  · rw [if_neg hc]
    rw [List.pairwise_append]
    refine ⟨h, by simp, ?_⟩
    intro a ha b hb
    rw [List.mem_singleton] at hb
    subst hb
    intro he
    exact hc (List.any_eq_true.mpr ⟨a, ha, by simp [he]⟩)

theorem parsedGoals_fold_mem :
    ∀ (file : List GoalRow) (acc : List Goal) (x : Goal),
      x ∈ file.foldl
          (fun acc r =>
            match parseGoalRow r with
            | none => acc
            | some g => dictInsert acc g) acc →
      x ∈ acc ∨ ∃ r ∈ file, parseGoalRow r = some x := by
  intro file
  induction file with
  | nil => intro acc x h; exact Or.inl h
  | cons r rs ih =>
    intro acc x h
    rw [List.foldl_cons] at h
    rcases ih _ x h with hacc | ⟨r2, hr2, hp2⟩
    · cases hp : parseGoalRow r with
      | none => rw [hp] at hacc; exact Or.inl hacc
      | some g =>
        rw [hp] at hacc
        rcases dictInsert_mem _ _ _ hacc with hx | hx
        · exact Or.inl hx
        · exact Or.inr ⟨r, by simp, by rw [hp, hx]⟩
    · exact Or.inr ⟨r2, by simp [hr2], hp2⟩

theorem parsedGoals_fold_nodup :
    ∀ (file : List GoalRow) (acc : List Goal),
      List.Pairwise (fun a b => a.title ≠ b.title) acc →
      List.Pairwise (fun a b => a.title ≠ b.title)
        (file.foldl
          (fun acc r =>
            match parseGoalRow r with
            | none => acc
            | some g => dictInsert acc g) acc) := by
  intro file
  induction file with
  | nil => intro acc h; exact h
  | cons r rs ih =>
    intro acc h
    rw [List.foldl_cons]
    apply ih
    cases hp : parseGoalRow r with
    | none => exact h
    | some g => exact dictInsert_nodup _ _ h

theorem parsedGoals_mem (file : List GoalRow) (x : Goal) (h : x ∈ parsedGoals file) :
    ∃ r ∈ file, parseGoalRow r = some x := by
  rcases parsedGoals_fold_mem file [] x h with hx | hx
  · simp at hx
  · exact hx

theorem parsedGoals_nodup (file : List GoalRow) :
    List.Pairwise (fun a b => a.title ≠ b.title) (parsedGoals file) :=
  parsedGoals_fold_nodup file [] (by simp)

theorem foldl_parse_serialize :
    ∀ (gs acc : List Goal),
      (∀ x ∈ gs, parseGoalRow (serializeGoal x) = some x) →
      List.Pairwise (fun a b => a.title ≠ b.title) (acc ++ gs) →
      (gs.map serializeGoal).foldl
          (fun acc r =>
            match parseGoalRow r with
            | none => acc
            | some g => dictInsert acc g) acc
        = acc ++ gs := by
  intro gs
  induction gs with
  | nil => intro acc _ _; simp
  | cons g gs ih =>
    intro acc hround hnd
    rw [List.map_cons, List.foldl_cons, hround g (by simp)]
    dsimp only
    have hfresh : acc.any (fun y => y.title = g.title) = false := by
      rw [List.any_eq_false]
      intro a ha
      have := (List.pairwise_append.mp hnd).2.2 a ha g (by simp)
      simpa using this
    have hins : dictInsert acc g = acc ++ [g] := by
      unfold dictInsert
      rw [hfresh]
      simp
    rw [hins, ih (acc ++ [g]) (fun x hx => hround x (by simp [hx]))
      (by rwa [List.append_assoc, List.singleton_append])]
    rw [List.append_assoc, List.singleton_append]

theorem parsedGoals_of_serialized (gs : List Goal)
    (hround : ∀ x ∈ gs, parseGoalRow (serializeGoal x) = some x)
    (hnd : List.Pairwise (fun a b => a.title ≠ b.title) gs) :
    parsedGoals (gs.map serializeGoal) = gs := by
  unfold parsedGoals
  rw [foldl_parse_serialize gs [] hround (by simpa using hnd)]
  simp

theorem addMissing_mono : ∀ (ts : List String) (gs : List Goal) (x : Goal),
    x ∈ gs → x ∈ (addMissing gs ts).1 := by
  intro ts
  induction ts with
  | nil => intro gs x h; exact h
  | cons t ts ih =>
    intro gs x h
    rw [addMissing]
    by_cases hc : gs.any (fun y => y.title = t)
    · rw [if_pos hc]
      exact ih gs x h
    · rw [if_neg hc]
      exact ih _ x (by simp [h])

theorem addMissing_any_mono (ts : List String) (gs : List Goal) (t : String)
    (h : gs.any (fun y => y.title = t) = true) :
    (addMissing gs ts).1.any (fun y => y.title = t) = true := by
  obtain ⟨y, hy, hyt⟩ := List.any_eq_true.mp h
  exact List.any_eq_true.mpr ⟨y, addMissing_mono ts gs y hy, hyt⟩

theorem addMissing_has : ∀ (ts : List String) (gs : List Goal),
    ∀ t ∈ ts, (addMissing gs ts).1.any (fun y => y.title = t) = true := by
  intro ts
  induction ts with
  | nil => intro gs t ht; simp at ht
  | cons u ts ih =>
    intro gs t ht
    rw [addMissing]
    rcases List.mem_cons.mp ht with rfl | hts
    · by_cases hc : gs.any (fun y => y.title = t)
      · rw [if_pos hc]
        exact addMissing_any_mono ts gs t hc
      · rw [if_neg hc]
        exact addMissing_any_mono ts _ t
          (List.any_eq_true.mpr ⟨blankGoal t, by simp, by simp [blankGoal]⟩)
    · by_cases hc : gs.any (fun y => y.title = u)
      · rw [if_pos hc]
        exact ih gs t hts
      · rw [if_neg hc]
        exact ih _ t hts

theorem addMissing_all_present : ∀ (ts : List String) (gs : List Goal),
    (∀ t ∈ ts, gs.any (fun y => y.title = t) = true) →
    addMissing gs ts = (gs, false) := by
  intro ts
  induction ts with
  | nil => intro gs _; rfl
  | cons t ts ih =>
    intro gs h
    rw [addMissing, if_pos (h t (by simp))]
    exact ih gs (fun u hu => h u (by simp [hu]))

theorem addMissing_mem : ∀ (ts : List String) (gs : List Goal) (x : Goal),
    x ∈ (addMissing gs ts).1 → x ∈ gs ∨ ∃ t ∈ ts, x = blankGoal t := by
  intro ts
  induction ts with
  | nil => intro gs x h; exact Or.inl h
  | cons t ts ih =>
    intro gs x h
    rw [addMissing] at h
    by_cases hc : gs.any (fun y => y.title = t)
    · rw [if_pos hc] at h
      rcases ih gs x h with hx | ⟨u, hu, hxu⟩
      · exact Or.inl hx
      · exact Or.inr ⟨u, by simp [hu], hxu⟩
    · rw [if_neg hc] at h
      rcases ih _ x h with hx | ⟨u, hu, hxu⟩
      · rcases List.mem_append.mp hx with hx | hx
        · exact Or.inl hx
        · exact Or.inr ⟨t, by simp, by simpa using hx⟩
      · exact Or.inr ⟨u, by simp [hu], hxu⟩

theorem addMissing_nodup : ∀ (ts : List String) (gs : List Goal),
    List.Pairwise (fun a b => a.title ≠ b.title) gs →
    List.Pairwise (fun a b => a.title ≠ b.title) (addMissing gs ts).1 := by
  intro ts
  induction ts with
  | nil => intro gs h; exact h
  | cons t ts ih =>
    intro gs h
    rw [addMissing]
    by_cases hc : gs.any (fun y => y.title = t)
    · rw [if_pos hc]
      exact ih gs h
    · rw [if_neg hc]
      apply ih
      rw [List.pairwise_append]
      refine ⟨h, by simp, ?_⟩
      intro a ha b hb
      rw [List.mem_singleton] at hb
      subst hb
      intro he
      exact hc (List.any_eq_true.mpr ⟨a, ha, by simp [blankGoal] at he ⊢; exact he⟩)

theorem goalNewTime_congr (sessions : List Session) (x y : Goal)
    (ht : y.title = x.title) (he : y.estimate_timestamp = x.estimate_timestamp) :
    goalNewTime sessions y = goalNewTime sessions x := by
  unfold goalNewTime
  rw [ht, he]

theorem pass_title (sessions : List Session) (x : Goal) :
    (ensureEstF (updateTW sessions x)).title = x.title := by
  rw [(ensureEstF_fields _).1, (updateTW_fields _ _).1]

theorem pass_ets (sessions : List Session) (x : Goal) :
    (ensureEstF (updateTW sessions x)).estimate_timestamp = x.estimate_timestamp := by
  rw [(ensureEstF_fields _).2.1, (updateTW_fields _ _).2.1]

theorem pass_fixpoint (sessions : List Session) (x : Goal)
    (h1 : x.time_worked_seconds = goalNewTime sessions x)
    (h2 : 0 < x.time_worked_seconds → x.time_worked_formatted ≠ "")
    (h3 : 0 < x.estimate_seconds → x.estimate_formatted ≠ "") :
    ensureEstF (updateTW sessions x) = x := by
  have hu : updateTW sessions x = x := by
    unfold updateTW
    rw [if_neg (by simp [h1])]
    by_cases hb : x.time_worked_formatted = ""
    · rw [if_pos hb]
      have hnp : ¬(0 < goalNewTime sessions x) := by
        rw [← h1]
        intro hp
        exact h2 hp hb
      rw [if_neg hnp, ← hb]
    · rw [if_neg hb]
  rw [hu]
  unfold ensureEstF
  rw [if_neg (fun h => h3 h.1 h.2)]

theorem updateAll_fixpoint (sessions : List Session) (gs : List Goal)
    (h : ∀ x ∈ gs, x.time_worked_seconds = goalNewTime sessions x ∧
        (0 < x.time_worked_seconds → x.time_worked_formatted ≠ "") ∧
        (0 < x.estimate_seconds → x.estimate_formatted ≠ "")) :
    updateAllGoals sessions gs = (gs, false) := by
  rw [updateAllGoals_eq]
  have hmap : gs.map (fun g => ensureEstF (updateTW sessions g)) = gs :=
    map_id_of_mem _ gs
      (fun x hx => pass_fixpoint sessions x (h x hx).1 (h x hx).2.1 (h x hx).2.2)
  have hany : (gs.any fun g =>
      decide (g.time_worked_seconds ≠ goalNewTime sessions g)) = false := by
    rw [List.any_eq_false]
    intro x hx
    simp [(h x hx).1]
  rw [hmap, hany]

theorem load_goals_pure_idem : ∀ (file : List GoalRow) (sessions : List Session)
    (g : List Goal) (f : List GoalRow) (w : Bool),
    load_goals_pure file sessions = (g, f, w) →
    load_goals_pure f sessions = (g, f, false) := by
  intro file sessions g f w h
  simp only [load_goals_pure] at h
  set T := sessionTitles sessions with hT
  set A := (addMissing (parsedGoals file) T).1 with hA
  set G2 := (updateAllGoals sessions A).1 with hG2def
  split at h
  · -- a write happened: the new file serializes the returned goals
    have hg : G2 = g := congrArg (fun p => p.1) h
    have hf : G2.map serializeGoal = f := congrArg (fun p => p.2.1) h
    subst hg
    subst hf
    have hAinv : ∀ x ∈ A, GoalInv x := by
      intro x hx
      rcases addMissing_mem T (parsedGoals file) x hx with hx2 | ⟨t, ht, hxt⟩
      · obtain ⟨r, _, hr⟩ := parsedGoals_mem file x hx2
        exact parseGoalRow_inv r x hr
      · obtain ⟨hv1, hv2⟩ := sessionTitles_val sessions t ht
        rw [hxt]
        exact blankGoal_inv t hv1 hv2
    have hG2eq : G2 = A.map (fun x => ensureEstF (updateTW sessions x)) := by
      rw [hG2def, updateAllGoals_eq]
    have hG2inv : ∀ x ∈ G2, GoalInv x := by
      intro x hx
      rw [hG2eq] at hx
      obtain ⟨a, ha, hax⟩ := List.mem_map.mp hx
      rw [← hax]
      exact pass_inv sessions a (hAinv a ha)
    have hG2nodup : List.Pairwise (fun a b => a.title ≠ b.title) G2 := by
      rw [hG2eq, List.pairwise_map]
      refine (addMissing_nodup T (parsedGoals file) (parsedGoals_nodup file)).imp ?_
      intro a b hab
      rw [pass_title, pass_title]
      exact hab
    have hG2tw : ∀ x ∈ G2, x.time_worked_seconds = goalNewTime sessions x := by
      intro x hx
      rw [hG2eq] at hx
      obtain ⟨a, _, hax⟩ := List.mem_map.mp hx
      rw [← hax, (ensureEstF_fields _).2.2.2.2.2.1,
        (updateTW_fields _ _).2.2.2.2.2.2,
        goalNewTime_congr sessions a _ (pass_title sessions a) (pass_ets sessions a)]
    have hG2titles : ∀ t ∈ T, G2.any (fun y => y.title = t) = true := by
      intro t ht
      obtain ⟨a, ha, hat⟩ := List.any_eq_true.mp (addMissing_has T (parsedGoals file) t ht)
      rw [hG2eq]
      refine List.any_eq_true.mpr ⟨ensureEstF (updateTW sessions a), List.mem_map_of_mem _ ha, ?_⟩
      rw [pass_title]
      exact hat
    simp only [load_goals_pure, ← hT]
    rw [parsedGoals_of_serialized G2
      (fun x hx => parse_serialize_roundtrip x (hG2inv x hx)) hG2nodup]
    rw [addMissing_all_present T G2 hG2titles]
    dsimp only
    rw [updateAll_fixpoint sessions G2
      (fun x hx => ⟨hG2tw x hx, (hG2inv x hx).2.2.2.2.2, (hG2inv x hx).2.2.2.2.1⟩)]
    simp
  · -- no write: the file is already a fixpoint and the flags stay down
    rename_i hcond
    have hg : G2 = g := congrArg (fun p => p.1) h
    have hf : file = f := congrArg (fun p => p.2.1) h
    subst hg
    subst hf
    simp only [load_goals_pure, ← hT, ← hA, ← hG2def]
    rw [if_neg hcond]

/-- Claim C4: the goal-ledger load is idempotent — if one call returns a
goal list and leaves the file in some state, an immediate second call with
no intervening session writes returns the identical goal list, leaves the
file identical, and performs no write. -/
theorem load_goals_idempotent :
    ∀ (gf : List GoalRow) (sf : List RawSessionRow) (g1 : List Goal)
      (f1 : List GoalRow) (w1 : Bool),
      load_goals_csv gf sf = .ok (g1, f1, w1) →
      load_goals_csv f1 sf = .ok (g1, f1, false) := by
  intro gf sf g1 f1 w1 h
  unfold load_goals_csv at h ⊢
  cases hsess : load_sessions_csv sf with
  | error e =>
    rw [hsess] at h
    exact absurd h (by simp)
  | ok sessions =>
    rw [hsess] at h
    injection h with h
    dsimp only
    rw [load_goals_pure_idem gf sessions g1 f1 w1 h]

theorem load_goals_idempotent_witness :
    load_goals_csv [] [⟨"a", "0001-01-01T00:00:00", "0001-01-01T01:00:00", "3600", ""⟩]
        = .ok ((load_goals_pure [] [⟨"a", 86400, 90000, 3600⟩]).1,
            (load_goals_pure [] [⟨"a", 86400, 90000, 3600⟩]).2.1, true) ∧
    load_goals_csv (load_goals_pure [] [⟨"a", 86400, 90000, 3600⟩]).2.1
        [⟨"a", "0001-01-01T00:00:00", "0001-01-01T01:00:00", "3600", ""⟩]
      = .ok ((load_goals_pure [] [⟨"a", 86400, 90000, 3600⟩]).1,
          (load_goals_pure [] [⟨"a", 86400, 90000, 3600⟩]).2.1, false) :=
  ⟨by decide,
    load_goals_idempotent []
      [⟨"a", "0001-01-01T00:00:00", "0001-01-01T01:00:00", "3600", ""⟩]
      (load_goals_pure [] [⟨"a", 86400, 90000, 3600⟩]).1
      (load_goals_pure [] [⟨"a", 86400, 90000, 3600⟩]).2.1 true (by decide)⟩

end Hiper
